import Mathlib

/-
Verification of the resume-analyzer / quiz-generator pipeline.

Strings are modelled as lists of characters (`Str`).  Python's regex uses are
embedded as specialised, pattern-by-pattern matchers that follow the
backtracking order of the `re` module (leftmost search position, greedy
quantifiers tried longest-first, alternations tried left to right).
Recursion is fuelled or structural so that every definition reduces in the
kernel.
-/

set_option maxHeartbeats 1000000
set_option maxRecDepth 10000

abbrev Str := List Char

def str (s : String) : Str := s.toList

/-- Python `\s` for the ASCII range: space, tab, newline, carriage return,
vertical tab and form feed. -/
def isSpacePy (c : Char) : Bool :=
  c = ' ' || c = '\t' || c = '\n' || c = '\r' || c = '\x0b' || c = '\x0c'

/-- Python `\w` for the ASCII range: letters, digits and underscore. -/
def isWordChar (c : Char) : Bool :=
  c.isAlpha || c.isDigit || c = '_'

/-- Character class `[A-Za-z\s]` used by the address patterns. -/
def isAlphaSpace (c : Char) : Bool := c.isAlpha || isSpacePy c

def lowerStr (l : Str) : Str := l.map Char.toLower

def upperStr (l : Str) : Str := l.map Char.toUpper

/-- Python `str.strip()`: remove leading and trailing whitespace. -/
def strip (l : Str) : Str :=
  ((l.dropWhile isSpacePy).reverse.dropWhile isSpacePy).reverse

/-- Python `str.title()` (ASCII): uppercase a letter that follows a
non-letter, lowercase a letter that follows a letter. -/
def titleGo : Bool → Str → Str
  | _, [] => []
  | prevAlpha, c :: t =>
    (if c.isAlpha then (if prevAlpha then c.toLower else c.toUpper) else c) ::
      titleGo c.isAlpha t

def titleStr (l : Str) : Str := titleGo false l

/-- Python `needle in hay` on strings: substring test. -/
def containsSub : Str → Str → Bool
  | n, [] => n.isPrefixOf []
  | n, c :: t => n.isPrefixOf (c :: t) || containsSub n t

/-- Python `str.replace(needle, repl)` (all non-overlapping occurrences,
left to right).  Fuelled by the length of the scanned string. -/
def replaceAllFuel : Nat → Str → Str → Str → Str
  | 0, _, _, l => l
  | _ + 1, _, _, [] => []
  | f + 1, n, r, c :: t =>
    if !n.isEmpty && n.isPrefixOf (c :: t) then
      r ++ replaceAllFuel f n r ((c :: t).drop n.length)
    else
      c :: replaceAllFuel f n r t

def replaceAll (n r l : Str) : Str := replaceAllFuel (l.length + 1) n r l

/-- Python `str.format` restricted to the replacement fields that actually
occur in the question templates: a single left-to-right pass substituting
each `\x7bname\x7d` key. -/
def formatMapFuel : Nat → List (Str × Str) → Str → Str
  | 0, _, l => l
  | _ + 1, _, [] => []
  | f + 1, subs, c :: t =>
    match subs.find? (fun p => p.1.isPrefixOf (c :: t)) with
    | some p => p.2 ++ formatMapFuel f subs ((c :: t).drop p.1.length)
    | none => c :: formatMapFuel f subs t

def formatMap (subs : List (Str × Str)) (l : Str) : Str :=
  formatMapFuel (l.length + 1) subs l

/-- Python `str.split(sep)` for a single-character separator. -/
def splitOnChar (sep : Char) : Str → List Str
  | [] => [[]]
  | c :: t =>
    if c = sep then [] :: splitOnChar sep t
    else
      match splitOnChar sep t with
      | [] => [[c]]
      | p :: ps => (c :: p) :: ps

/-- Python `str.split()` with no argument: split on whitespace runs,
dropping empty pieces.  Fuelled by the length of the string. -/
def splitWsFuel : Nat → Str → List Str
  | 0, _ => []
  | _ + 1, [] => []
  | f + 1, c :: t =>
    if isSpacePy c then splitWsFuel f t
    else
      (c :: t.takeWhile (fun d => !isSpacePy d)) ::
        splitWsFuel f (t.dropWhile (fun d => !isSpacePy d))

def splitWs (l : Str) : List Str := splitWsFuel (l.length + 1) l

/-- Python `sep.join(pieces)`. -/
def joinSep (sep : Str) : List Str → Str
  | [] => []
  | [p] => p
  | p :: ps => p ++ sep ++ joinSep sep ps

/-- Word-boundary test of `\b` between two neighbouring characters
(`none` = outside the text, which counts as a non-word character). -/
def wbBoundary (a b : Option Char) : Bool :=
  (a.elim false isWordChar) != (b.elim false isWordChar)

/-- Does `\b<phrase>\b` match at the start of `text`, given the character
`prev` immediately before this position? -/
def phraseWBAt (phrase : Str) (prev : Option Char) (text : Str) : Bool :=
  phrase.isPrefixOf text &&
    wbBoundary prev text.head? &&
    wbBoundary phrase.getLast? ((text.drop phrase.length).head?)

def phraseWBGo (phrase : Str) : Option Char → Str → Bool
  | _, [] => false
  | prev, c :: t => phraseWBAt phrase prev (c :: t) || phraseWBGo phrase (some c) t

/-- `re.search(r'\b<phrase>\b', text) is not None` for a literal phrase. -/
def phraseWB (phrase text : Str) : Bool := phraseWBGo phrase none text

/-- Leftmost regex search: `f` reports the length of a match at the start of
its argument; the result is the matched slice of the first matching
position, scanning left to right. -/
def searchLen (f : Str → Option Nat) : Str → Option Str
  | [] => (f []).map fun n => ([] : Str).take n
  | c :: t =>
    match f (c :: t) with
    | some n => some ((c :: t).take n)
    | none => searchLen f t

/-- Leftmost search that also passes the preceding character to the
position matcher (needed for `\b` at the start of a pattern). -/
def searchLenPrev (f : Option Char → Str → Option Nat) :
    Option Char → Str → Option Str
  | _, [] => none
  | prev, c :: t =>
    match f prev (c :: t) with
    | some n => some ((c :: t).take n)
    | none => searchLenPrev f (some c) t

/-- First `some` in a list of options (used for ordered pattern lists). -/
def firstSome : List (Option α) → Option α
  | [] => none
  | some a :: _ => some a
  | none :: rest => firstSome rest

/-- Case-insensitive literal prefix test (`pat` is given pre-lowered). -/
def ciPrefixAt (pat l : Str) : Bool :=
  lowerStr (l.take pat.length) == pat && pat.length ≤ l.length

/-- Consume one expected character. -/
def eatChar (c : Char) : Str → Option Str
  | [] => none
  | d :: t => if d = c then some t else none

/-- Consume exactly `n` digits. -/
def eatDigits : Nat → Str → Option Str
  | 0, l => some l
  | _ + 1, [] => none
  | n + 1, d :: t => if d.isDigit then eatDigits n t else none

/-
Document classifier — `resume_analyzer.py`, `ResumeAnalyzer.__init__`
(lines 10-36) and `validate_document_type` (lines 110-143),
`validate_resume_sections` (lines 145-154).

Each indicator regex has the shape `(?i)\b(p1|p2|...)\b` and is searched in
the already lower-cased text, so it matches exactly when one of its
(lower-case) phrases occurs with word boundaries on both sides.
-/

/-- `self.resume_indicators` (lines 20-27), one phrase list per pattern. -/
def resume_indicators : List (List Str) :=
  [ [str "resume", str "curriculum vitae", str "cv"],
    [str "objective", str "summary", str "profile"],
    [str "phone", str "email", str "contact", str "address"],
    [str "bachelor", str "master", str "degree", str "university", str "college"],
    [str "developer", str "engineer", str "analyst", str "manager", str "intern"],
    [str "programming", str "software", str "web", str "technical"] ]

/-- `self.non_resume_indicators` (lines 30-36), one phrase list per pattern. -/
def non_resume_indicators : List (List Str) :=
  [ [str "internship letter", str "offer letter", str "appointment letter"],
    [str "dear", str "congratulations", str "pleased to inform"],
    [str "company letterhead", str "official letter"],
    [str "terms and conditions", str "salary", str "compensation"],
    [str "joining date", str "start date", str "reporting"] ]

/-- Number of indicator patterns of `inds` whose regex matches `text`
(each pattern counts at most once, as in the source loops). -/
def countIndicators (inds : List (List Str)) (text : Str) : Nat :=
  (inds.filter fun alts => alts.any fun p => phraseWB p text).length

inductive DocVerdict where
  | reject (reason : Str)
  | accept (score : Nat)
deriving DecidableEq

def officialDocMsg : Str :=
  str "Document appears to be an offer letter, internship letter, or other official document, not a resume."

def insufficientMsg : Str :=
  str "Document does not contain sufficient resume characteristics. Please upload a valid resume."

/-- `validate_document_type` (lines 110-143): the non-resume indicator count
is checked first; only if it is below 2 is the resume indicator count
consulted. -/
def validate_document_type (text : Str) : DocVerdict :=
  let text_lower := lowerStr text
  let non_resume_matches := countIndicators non_resume_indicators text_lower
  if non_resume_matches ≥ 2 then .reject officialDocMsg
  else
    let resume_matches := countIndicators resume_indicators text_lower
    if resume_matches < 3 then .reject insufficientMsg
    else .accept resume_matches

/-- `self.required_keywords` (lines 12-17), in dict insertion order. -/
def required_keywords : List (Str × List Str) :=
  [ (str "experience",
      [str "experience", str "work experience", str "employment", str "career",
       str "professional experience", str "work history"]),
    (str "education",
      [str "education", str "academic", str "degree", str "university",
       str "college", str "school", str "qualification"]),
    (str "skills",
      [str "skills", str "technical skills", str "competencies", str "expertise",
       str "technologies", str "programming"]),
    (str "projects",
      [str "projects", str "project", str "portfolio", str "work samples",
       str "achievements"]) ]

/-- `validate_resume_sections` (lines 145-154): plain substring search of
each keyword in the lower-cased text. -/
def validate_resume_sections (text : Str) : List (Str × Bool) :=
  let text_lower := lowerStr text
  required_keywords.map fun p => (p.1, p.2.any fun kw => containsSub kw text_lower)

/-
Contact extraction — `resume_analyzer.py`, `extract_contact_info`
(lines 156-231).  Each regex of the source is compiled by hand into a
matcher `Str → Option Nat` giving the length of the match at the current
position (following the greedy, alternation-in-order backtracking of `re`),
and `searchLen` supplies `re.search`'s leftmost-position semantics.
-/

/-- Character class `[A-Za-z0-9._%+-]` (local part of the email pattern). -/
def isEmailLocalChar (c : Char) : Bool :=
  c.isAlpha || c.isDigit || c = '.' || c = '_' || c = '%' || c = '+' || c = '-'

/-- Character class `[A-Za-z0-9.-]` (domain part of the email pattern). -/
def isEmailDomChar (c : Char) : Bool :=
  c.isAlpha || c.isDigit || c = '.' || c = '-'

/-- Character class `[A-Z|a-z]` of the email pattern (the `|` inside the
class is a literal bar). -/
def isEmailTldChar (c : Char) : Bool := c.isAlpha || c = '|'

/-- Backtracking for `[A-Z|a-z]{2,}\b`: try the longest run first, at least
two characters, requiring a word boundary after the match. -/
def emailTldBack (tld r : Str) : Nat → Option Str
  | 0 => none
  | 1 => none
  | j + 2 =>
    if wbBoundary ((tld.take (j + 2)).getLast?) ((tld.drop (j + 2) ++ r).head?) then
      some (tld.drop (j + 2) ++ r)
    else emailTldBack tld r (j + 1)

/-- Tail `\.[A-Z|a-z]{2,}\b` of the email pattern. -/
def emailTld (t : Str) : Option Str := do
  let t1 ← eatChar '.' t
  let tld := t1.takeWhile isEmailTldChar
  emailTldBack tld (t1.drop tld.length) tld.length

/-- Backtracking for `[A-Za-z0-9.-]+\.` : the greedy domain run is retried
from the longest split (at least one character) down. -/
def emailDomBack (dom r : Str) : Nat → Option Str
  | 0 => none
  | k + 1 => (emailTld (dom.drop (k + 1) ++ r)).orElse fun _ => emailDomBack dom r k

/-- Match of `\b[A-Za-z0-9._%+-]+@[A-Za-z0-9.-]+\.[A-Z|a-z]{2,}\b` at the
current position, `prev` being the preceding character. -/
def matchEmailAt (prev : Option Char) (text : Str) : Option Nat :=
  if !wbBoundary prev text.head? then none
  else
    let lp := text.takeWhile isEmailLocalChar
    if lp.isEmpty then none
    else do
      let t1 ← eatChar '@' (text.drop lp.length)
      let dom := t1.takeWhile isEmailDomChar
      let rest ← emailDomBack dom (t1.drop dom.length) dom.length
      some (text.length - rest.length)

/-- Email branch of `extract_contact_info` (lines 164-171): leftmost match,
then validated for length 5-100 (exclusive) and exactly one `@`. -/
def extract_email (text : Str) : Str :=
  match searchLenPrev matchEmailAt none text with
  | none => []
  | some email =>
    if email.length > 5 && email.length < 100 && email.count '@' == 1 then email
    else []

/-- `\+\s*91\s+[0-9]{10}` (line 175). -/
def matchPhone1At : Str → Option Nat
  | [] => none
  | c :: t =>
    if c = '+' then
      let t1 := t.dropWhile isSpacePy
      match t1 with
      | '9' :: '1' :: t2 =>
        let ws2 := t2.takeWhile isSpacePy
        if ws2.isEmpty then none
        else
          match eatDigits 10 (t2.drop ws2.length) with
          | some rest => some ((c :: t).length - rest.length)
          | none => none
      | _ => none
    else none

/-- `\+91[0-9]{10}` (line 176). -/
def matchPhone2At : Str → Option Nat
  | [] => none
  | c :: t =>
    if c = '+' then
      match t with
      | '9' :: '1' :: t2 =>
        match eatDigits 10 t2 with
        | some _ => some 13
        | none => none
      | _ => none
    else none

/-- `\([0-9]{3}\)\s*[0-9]{3}[-\s]?[0-9]{4}` (line 178), also used as the
tail of the `\+1` pattern. -/
def matchPhoneParenAt (text : Str) : Option Nat := do
  let t1 ← eatChar '(' text
  let t2 ← eatDigits 3 t1
  let t3 ← eatChar ')' t2
  let t4 := t3.dropWhile isSpacePy
  let t5 ← eatDigits 3 t4
  let t6 := match t5 with
    | d :: r => if d = '-' || isSpacePy d then r else t5
    | [] => t5
  let rest ← eatDigits 4 t6
  some (text.length - rest.length)

/-- `\+1\s*\([0-9]{3}\)\s*[0-9]{3}[-\s]?[0-9]{4}` (line 177). -/
def matchPhone3At : Str → Option Nat
  | [] => none
  | c :: t =>
    if c = '+' then
      match t with
      | '1' :: t0 =>
        let t1 := t0.dropWhile isSpacePy
        match matchPhoneParenAt t1 with
        | some n => some (2 + (t0.length - t1.length) + n)
        | none => none
      | _ => none
    else none

/-- Shared body of the phone loop (lines 183-206): given the matched,
stripped string, return the canonical display value, or `none` when the
candidate is not accepted (the loop then moves to the next pattern). -/
def phoneFromMatch (m : Str) : Option Str :=
  let phone := strip m
  if containsSub (str "+91") phone then
    let digits := (replaceAll (str "+91") [] phone).filter Char.isDigit
    if digits.length == 10 &&
        (digits.head? = some '6' || digits.head? = some '7' ||
         digits.head? = some '8' || digits.head? = some '9') then
      some (str "+91 " ++ digits)
    else none
  else if containsSub (str "+1") phone then
    let digits := (replaceAll (str "+1") [] phone).filter Char.isDigit
    if digits.length == 10 then
      some (str "+1 (" ++ digits.take 3 ++ str ") " ++
        (digits.drop 3).take 3 ++ str "-" ++ digits.drop 6)
    else none
  else
    let digits := phone.filter Char.isDigit
    if digits.length == 10 &&
        (digits.head? = some '6' || digits.head? = some '7' ||
         digits.head? = some '8' || digits.head? = some '9') then
      some (str "+91 " ++ digits)
    else if digits.length == 10 &&
        (digits.head? = some '2' || digits.head? = some '3' ||
         digits.head? = some '4' || digits.head? = some '5') then
      some (str "+1 (" ++ digits.take 3 ++ str ") " ++
        (digits.drop 3).take 3 ++ str "-" ++ digits.drop 6)
    else none

/-- Phone branch of `extract_contact_info` (lines 173-208): the four
patterns are tried in order; a matched candidate that fails validation
does not stop the loop. -/
def extract_phone (text : Str) : Str :=
  (firstSome
    [ searchLen matchPhone1At text >>= phoneFromMatch,
      searchLen matchPhone2At text >>= phoneFromMatch,
      searchLen matchPhone3At text >>= phoneFromMatch,
      searchLen matchPhoneParenAt text >>= phoneFromMatch ]).getD []

/-- Street-type alternation of the first address pattern (line 213), in
source order (tried left to right as `re` does). -/
def streetAlts : List Str :=
  [str "Street", str "St", str "Avenue", str "Ave", str "Road", str "Rd",
   str "Drive", str "Dr", str "Lane", str "Ln", str "Boulevard", str "Blvd"]

/-- Tail `,?\s*[A-Za-z\s]+,\s*[A-Z]{2}\s+[0-9]{5}` of the first address
pattern; returns the remaining suffix after the match. -/
def restAddr1 (t0 : Str) : Option Str := do
  let t1 := match t0 with
    | ',' :: r => r
    | _ => t0
  let city := t1.takeWhile isAlphaSpace
  if city.isEmpty then none
  else do
    let t3 ← eatChar ',' (t1.drop city.length)
    let t4 := t3.dropWhile isSpacePy
    match t4 with
    | a :: b :: t5 =>
      if a.isUpper && b.isUpper then
        let ws := t5.takeWhile isSpacePy
        if ws.isEmpty then none
        else eatDigits 5 (t5.drop ws.length)
      else none
    | _ => none

/-- Greedy backtracking of `\s+[A-Za-z\s]+(?:Street|St|...)`: since the
class contains whitespace, `\s+` and `[A-Za-z\s]+` jointly consume one run;
the split before the street-type alternation is retried from the longest
position down to two characters (at least one whitespace plus one class
character), which reproduces the order `re` tries the two quantifiers in. -/
def addr1Back (run r3 : Str) : Nat → Option Str
  | 0 => none
  | 1 => none
  | k + 2 =>
    let region := run.drop (k + 2) ++ r3
    (firstSome (streetAlts.map fun alt =>
      if alt.isPrefixOf region then restAddr1 (region.drop alt.length) else none)).orElse
      fun _ => addr1Back run r3 (k + 1)

/-- First address pattern (line 213):
`[0-9]+\s+[A-Za-z\s]+(?:Street|...|Blvd),?\s*[A-Za-z\s]+,\s*[A-Z]{2}\s+[0-9]{5}`. -/
def matchAddr1At (text : Str) : Option Nat :=
  let ds := text.takeWhile Char.isDigit
  if ds.isEmpty then none
  else
    let t1 := text.drop ds.length
    if !(t1.head?.elim false isSpacePy) then none
    else
      let run := t1.takeWhile isAlphaSpace
      match addr1Back run (t1.drop run.length) run.length with
      | some rest => some (text.length - rest.length)
      | none => none

/-- Second address pattern (line 214):
`[A-Za-z\s]+,\s*[A-Z]{2}\s+[0-9]{5}-[0-9]{4}`. -/
def matchAddr2At (text : Str) : Option Nat :=
  let run := text.takeWhile isAlphaSpace
  if run.isEmpty then none
  else do
    let t1 ← eatChar ',' (text.drop run.length)
    let t2 := t1.dropWhile isSpacePy
    match t2 with
    | a :: b :: t3 =>
      if a.isUpper && b.isUpper then do
        let ws := t3.takeWhile isSpacePy
        if ws.isEmpty then none
        else do
          let t4 ← eatDigits 5 (t3.drop ws.length)
          let t5 ← eatChar '-' t4
          let rest ← eatDigits 4 t5
          some (text.length - rest.length)
      else none
    | _ => none

/-- `re.search(r'[0-9]{5}', address)` of the validation (line 224). -/
def hasFiveDigitRun (l : Str) : Bool :=
  match searchLen (fun t => (eatDigits 5 t).map fun rest => t.length - rest.length) l with
  | some _ => true
  | none => false

/-- Validation applied to a matched address candidate (lines 222-225). -/
def addressChecks (address : Str) : Bool :=
  address.length > 20 && address.length < 80 &&
  address.contains ',' &&
  hasFiveDigitRun address &&
  !([str "email", str "phone", str "linkedin", str "github", str "http", str "@"].any
      fun w => containsSub w (lowerStr address))

/-- Address branch of `extract_contact_info` (lines 210-229): the two
patterns are tried in order; a match that fails validation lets the loop
continue with the next pattern; no match leaves the field empty. -/
def extract_address (text : Str) : Str :=
  match searchLen matchAddr1At text with
  | some m =>
    if addressChecks (strip m) then strip m
    else
      match searchLen matchAddr2At text with
      | some m2 => if addressChecks (strip m2) then strip m2 else []
      | none => []
  | none =>
    match searchLen matchAddr2At text with
    | some m2 => if addressChecks (strip m2) then strip m2 else []
    | none => []

structure ContactInfo where
  email : Str
  phone : Str
  address : Str
deriving DecidableEq

/-- `extract_contact_info` (lines 156-231): the three fields are extracted
independently; each is empty unless its matcher validates. -/
def extract_contact_info (text : Str) : ContactInfo :=
  { email := extract_email text
    phone := extract_phone text
    address := extract_address text }

/-
Skill extraction — `resume_analyzer.py`, `self.skill_categories`
(lines 39-70) and `extract_skills` (lines 249-293).
-/

/-- Concatenation of the `skill_categories` values, in dict insertion order
(lines 254-257 build exactly this list). -/
def all_tech_skills : List Str :=
  [ str "python", str "java", str "javascript", str "typescript", str "c++",
    str "c#", str "c", str "php", str "ruby", str "go", str "rust", str "swift",
    str "kotlin", str "scala", str "r", str "matlab", str "perl", str "shell",
    str "bash", str "powershell",
    str "html", str "css", str "react", str "angular", str "vue", str "vue.js",
    str "node.js", str "express", str "django", str "flask", str "spring",
    str "laravel", str "bootstrap", str "jquery", str "webpack", str "babel",
    str "sass", str "less",
    str "sql", str "mysql", str "postgresql", str "mongodb", str "oracle",
    str "sqlite", str "redis", str "cassandra", str "elasticsearch",
    str "dynamodb", str "neo4j", str "firebase", str "supabase",
    str "aws", str "azure", str "gcp", str "google cloud", str "docker",
    str "kubernetes", str "jenkins", str "gitlab ci", str "github actions",
    str "terraform", str "ansible", str "chef", str "puppet", str "vagrant",
    str "heroku", str "vercel", str "netlify",
    str "tensorflow", str "pytorch", str "scikit-learn", str "pandas",
    str "numpy", str "matplotlib", str "seaborn", str "jupyter",
    str "anaconda", str "spark", str "hadoop", str "kafka", str "airflow",
    str "machine learning", str "deep learning", str "nlp",
    str "git", str "github", str "gitlab", str "bitbucket", str "jira",
    str "confluence", str "slack", str "trello", str "asana", str "figma",
    str "sketch", str "photoshop", str "illustrator", str "postman",
    str "swagger", str "rest api", str "graphql",
    str "android", str "ios", str "react native", str "flutter",
    str "xamarin", str "ionic", str "cordova", str "swift", str "objective-c",
    str "kotlin",
    str "selenium", str "cypress", str "jest", str "mocha", str "chai",
    str "pytest", str "junit", str "testng", str "cucumber", str "postman" ]

/-- Display form of a vocabulary hit (lines 264-270): fixed acronyms are
upper-cased, a fixed list is kept verbatim, everything else is
title-cased. -/
def skillDisplay (skill : Str) : Str :=
  if [str "html", str "css", str "sql", str "php", str "api", str "nlp",
      str "aws", str "gcp", str "ios"].contains (lowerStr skill) then
    upperStr skill
  else if [str "javascript", str "typescript", str "node.js", str "vue.js"].contains
      (lowerStr skill) then
    skill
  else titleStr skill

/-- Vocabulary scan (lines 259-270): for each term, a word-boundary
case-insensitive search in the text; a hit contributes one display form. -/
def vocabScan (text : Str) : List Str :=
  let text_lower := lowerStr text
  (all_tech_skills.filter fun skill => phraseWB (lowerStr skill) text_lower).map
    skillDisplay

/-- Does the case-insensitive alternative `alt` (given in pattern spelling)
match at the start of `text` (preceded by `prev`) with `\b` on both sides? -/
def altWBAt (alt : Str) (prev : Option Char) (text : Str) : Bool :=
  ciPrefixAt (lowerStr alt) text &&
    wbBoundary prev text.head? &&
    wbBoundary ((text.take alt.length).getLast?) ((text.drop alt.length).head?)

/-- First alternative of `alts` matching at this position (in pattern
order); returns the matched slice in its original casing. -/
def findAltWB (alts : List Str) (prev : Option Char) (text : Str) : Option Str :=
  match alts with
  | [] => none
  | alt :: rest =>
    if altWBAt alt prev text then some (text.take alt.length)
    else findAltWB rest prev text

/-- `re.findall(r'\b(a1|a2|...)\b', text, re.IGNORECASE)`: leftmost
non-overlapping matches, alternatives tried in order, original casing
returned (with a single group this is the group content). -/
def findallWBFuel (alts : List Str) : Nat → Option Char → Str → List Str
  | 0, _, _ => []
  | _ + 1, _, [] => []
  | f + 1, prev, c :: t =>
    match findAltWB alts prev (c :: t) with
    | some m =>
      m :: findallWBFuel alts f (((c :: t).take m.length).getLast?) ((c :: t).drop m.length)
    | none => findallWBFuel alts f (some c) t

def findallWB (alts : List Str) (text : Str) : List Str :=
  findallWBFuel alts (text.length + 1) none text

/-- `tech_patterns` scan (lines 272-282): three alternation patterns, all
matches appended in order. -/
def patternScan (text : Str) : List Str :=
  findallWB [str "C++", str "C#", str ".NET", str "REST API", str "GraphQL"] text ++
  findallWB [str "Machine Learning", str "Deep Learning", str "Data Science",
             str "AI", str "ML", str "NLP"] text ++
  findallWB [str "React.js", str "Angular.js", str "Vue.js", str "Node.js"] text

/-- Case-insensitive first-seen deduplication (lines 284-291); `seen` is
the set of already-emitted lower-cased labels. -/
def dedupeCIGo : List Str → List Str → List Str
  | _, [] => []
  | seen, s :: rest =>
    if seen.contains (lowerStr s) then dedupeCIGo seen rest
    else s :: dedupeCIGo (lowerStr s :: seen) rest

def dedupeCI (l : List Str) : List Str := dedupeCIGo [] l

/-- `extract_skills` (lines 249-293): vocabulary hits, then pattern hits,
deduplicated case-insensitively preserving first-seen order, capped at 12. -/
def extract_skills (text : Str) : List Str :=
  (dedupeCI (vocabScan text ++ patternScan text)).take 12

/-
Name extraction — `resume_analyzer.py`, `extract_name` (lines 233-247).
-/

/-- The filter of line 242 (contact/metadata keywords) plus the character
class test `^[A-Za-z\s\.]+$` and length test of line 244. -/
def nameLineOk (line : Str) : Bool :=
  !line.isEmpty && (splitWs line).length ≤ 4 &&
  !([str "email", str "phone", str "address", str "resume", str "cv",
     str "@", str "http"].any fun w => containsSub w (lowerStr line)) &&
  !line.isEmpty && line.all (fun c => c.isAlpha || isSpacePy c || c = '.') &&
  line.length > 2

def extract_name (text : Str) : Str :=
  match ((splitOnChar '\n' text).take 5).map strip |>.filter nameLineOk with
  | [] => str "Candidate"
  | l :: _ => l

/-
Text extraction and the analysis pipeline — `resume_analyzer.py`,
`extract_text` (lines 99-108) and `analyze_resume` (lines 470-531).

The two PDF libraries are external collaborators; their outputs are the
parameters `primary` and `secondary`.
-/

/-- `extract_text` (lines 99-108): the secondary strategy is used only when
the primary result strips to empty; the final text is stripped. -/
def extract_text (primary secondary : Str) : Str :=
  let text := if (strip primary).isEmpty then secondary else primary
  strip text

inductive AnalyzeResult where
  | invalid (errorMessage : Str)
  | valid (candidateName : Str) (contact : ContactInfo) (skills : List Str)
      (sections : List (Str × Bool)) (fullText : Str)
deriving DecidableEq

def unreadableMsg : Str :=
  str "Unable to extract text from PDF. Please ensure the file is not corrupted or password-protected."

/-- `analyze_resume` (lines 470-531), parameterised by the two extraction
strategies' outputs.  The three rejection gates are modelled in full; the
accepted branch carries the fields whose extractors are embedded above
(education, experience, projects and the summary are modelled separately at
their own interfaces and are not repeated in this record). -/
def analyze_resume (primary secondary : Str) : AnalyzeResult :=
  let text := extract_text primary secondary
  if text.isEmpty then .invalid unreadableMsg
  else
    match validate_document_type text with
    | .reject reason => .invalid (str "Please enter a valid resume only. " ++ reason)
    | .accept _ =>
      let sections := validate_resume_sections text
      let missing := (sections.filter fun p => !p.2).map Prod.fst
      if missing.length ≥ 3 then
        .invalid (str "Please enter a valid industry resume. Missing key sections: " ++
          titleStr (joinSep (str ", ") missing) ++ str ".")
      else
        .valid (extract_name text) (extract_contact_info text)
          (extract_skills text) sections text

/-
Project extraction — `resume_analyzer.py`, `extract_projects`
(lines 364-412).  The function first obtains the projects section text via
`extract_section`; the block splitting and the two validation passes below
(lines 369-412) operate on that section text, which is the parameter here.
-/

/-- `re.split(r'\n(?=[A-Z])', s)`: split at a newline that is immediately
followed by an uppercase letter (the newline is consumed, the uppercase
letter kept). -/
def splitProjectBlocks : Str → List Str
  | [] => [[]]
  | c :: t =>
    if c = '\n' && (t.head?.elim false Char.isUpper) then
      [] :: splitProjectBlocks t
    else
      match splitProjectBlocks t with
      | [] => [[c]]
      | p :: ps => (c :: p) :: ps

/-- Leading bullet/numbering class `[\d\.\)\sâ€¢\*-]` of line 383. -/
def isProjBulletChar (c : Char) : Bool :=
  c.isDigit || c = '.' || c = ')' || isSpacePy c || c = 'â' || c = '€' ||
  c = '¢' || c = '*' || c = '-'

/-- Prefix rejection `(?i)^(algorithms?|tools?|outcome|technologies?)` of
line 388: an optional trailing `s` makes the stem a prefix already, so the
test is a case-insensitive prefix check of the stems. -/
def projNoiseStart (line : Str) : Bool :=
  [str "algorithm", str "tool", str "outcome", str "technologie"].any
    fun w => w.isPrefixOf (lowerStr line)

/-- Keyword test of line 392 (`(?i)(system|application|...)`, unanchored). -/
def projKeyword (line : Str) : Bool :=
  [str "system", str "application", str "platform", str "tool",
   str "analyzer", str "generator", str "classification", str "management",
   str "detection"].any fun w => containsSub w (lowerStr line)

/-- `(?i)using\s+(machine learning|ai|web|database)` of line 393. -/
def matchUsingAt (text : Str) : Option Nat :=
  if ciPrefixAt (str "using") text then
    let t1 := (text.drop 5)
    let ws := t1.takeWhile isSpacePy
    if ws.isEmpty then none
    else
      let t2 := t1.drop ws.length
      match firstSome
        ([str "machine learning", str "ai", str "web", str "database"].map
          fun alt => if ciPrefixAt alt t2 then some alt.length else none) with
      | some n => some (text.length - t2.length + n)
      | none => none
  else none

def projUsing (line : Str) : Bool :=
  (searchLen matchUsingAt line).isSome

/-- First validation of a candidate block title (lines 380-394). -/
def projectTitleOf (block : Str) : Option Str :=
  match splitOnChar '\n' (strip block) with
  | [] => none
  | l0 :: _ =>
    let first_line := strip ((strip l0).dropWhile isProjBulletChar)
    if first_line.length > 20 && first_line.length < 100 &&
        !projNoiseStart first_line &&
        !([str "department", str "college", str "university",
           str "academic projects"].any fun w => containsSub w (lowerStr first_line)) &&
        (projKeyword first_line || projUsing first_line) then
      some first_line
    else none

/-- Second validation pass (lines 402-410). -/
def projectFinalOk (project : Str) : Bool :=
  project.length > 25 &&
  !(str "academic").isPrefixOf (lowerStr project) &&
  !(str "department").isPrefixOf (lowerStr project) &&
  project.contains ' '

/-- `extract_projects` from the projects section text onwards
(lines 367-412): block split, title validation, the deliberate empty
result when nothing survives, final validation, cap at 3. -/
def extract_projects_core (projects_section : Str) : List Str :=
  let projects := (splitProjectBlocks projects_section).filterMap projectTitleOf
  if projects.isEmpty then []
  else (projects.filter projectFinalOk).take 3

/-
Quiz generator — `quiz_generator.py`.

Randomness model: an `Oracle` is an infinite stream of natural numbers and
an index into it is threaded through the computation; `random.choice`
consumes one draw (reduced modulo the pool size) and `random.sample`
consumes one draw per selected element, removing it from the pool.  Every
possible behaviour of the `random` module corresponds to some oracle, so
universally quantified theorems cover the real randomized program.
`random.choice([])` raises `IndexError`; errors are modelled with `Except`.
-/

inductive PyErr where
  | attributeError
  | indexError
deriving DecidableEq

deriving instance DecidableEq for Except

abbrev Oracle := Nat → Nat

def randChoice (o : Oracle) (i : Nat) : List α → Option (α × Nat)
  | [] => none
  | x :: rest =>
    some ((x :: rest).get ⟨o i % (x :: rest).length, Nat.mod_lt _ (Nat.succ_pos _)⟩,
      i + 1)

def randSample (o : Oracle) : Nat → List α → Nat → List α × Nat
  | i, _, 0 => ([], i)
  | i, [], _ + 1 => ([], i)
  | i, x :: rest, k + 1 =>
    let idx := o i % (x :: rest).length
    let chosen := (x :: rest).get ⟨idx, Nat.mod_lt _ (Nat.succ_pos _)⟩
    let r := randSample o (i + 1) ((x :: rest).eraseIdx idx) k
    (chosen :: r.1, r.2)

/-- The five question-pool categories of `self.question_generators`
(`QuizGenerator.__init__`, lines 10-56). -/
inductive Cat5 where
  | project_specifics
  | technical_deep_dive
  | problem_solving
  | industry_knowledge
  | practical_scenarios
deriving DecidableEq

/-- `self.question_generators` (lines 10-56). -/
def question_generators : Cat5 → List Str
  | .technical_deep_dive =>
    [ str "Compare {skill1} and {skill2} - when would you choose one over the other?",
      str "If you had to teach {skill} to a junior developer, what would be your approach?",
      str "What\x27s the most complex problem you\x27ve solved using {skill}?",
      str "How do you debug issues when working with {skill}?",
      str "What are the performance considerations when using {skill} in production?",
      str "Describe the learning curve you experienced with {skill}.",
      str "What libraries or frameworks complement {skill} in your workflow?" ]
  | .project_specifics =>
    [ str "What inspired you to build {project}?",
      str "How did you validate the requirements for {project}?",
      str "What was your testing strategy for {project}?",
      str "How did you handle data management in {project}?",
      str "What performance optimizations did you implement in {project}?",
      str "How did you ensure user experience in {project}?",
      str "What security considerations did you address in {project}?" ]
  | .problem_solving =>
    [ str "Describe a time when you had to learn a new technology quickly for a project.",
      str "How do you approach breaking down complex technical problems?",
      str "Tell me about a bug that took you the longest to fix.",
      str "How do you balance technical debt with feature development?",
      str "Describe your process for code reviews and quality assurance.",
      str "How do you handle conflicting technical requirements?",
      str "What\x27s your approach to choosing between multiple technical solutions?" ]
  | .industry_knowledge =>
    [ str "What emerging technologies in your field excite you the most?",
      str "How do you evaluate new tools before adopting them in projects?",
      str "What\x27s your perspective on current industry best practices?",
      str "How do you contribute to the developer community?",
      str "What resources do you use to stay current with technology trends?",
      str "How do you approach technical documentation and knowledge sharing?",
      str "What\x27s your experience with agile development methodologies?" ]
  | .practical_scenarios =>
    [ str "How would you optimize a slow-performing application?",
      str "Describe your approach to building scalable systems.",
      str "How do you handle version control and collaboration in team projects?",
      str "What\x27s your strategy for handling production incidents?",
      str "How do you approach API design and integration?",
      str "Describe your experience with cloud platforms and deployment.",
      str "How do you ensure accessibility in your applications?" ]

/-- `used_question_types.add(cat)`: Python set membership/size semantics,
modelled as an insertion-if-absent list. -/
def addSet (used : List Cat5) (c : Cat5) : List Cat5 :=
  if used.contains c then used else used ++ [c]

/-- Provenance tag recorded with every generated question: which generator
produced it (the `projectQ` index counts projects in loop order).  The
source produces no tag; this instrumentation only labels each appended
question with the branch of `generate_unique_questions` that appended it,
and `experienceQ`/`educationQ` exist so that claims about experience and
education questions can be stated. -/
inductive QCat where
  | projectQ (idx : Nat)
  | skillQ
  | generalQ
  | experienceQ
  | educationQ
deriving DecidableEq

def isProjectTag (q : QCat × Str) : Bool :=
  match q.1 with
  | .projectQ _ => true
  | _ => false

/-- Question-building loop of `generate_diverse_project_questions`
(lines 253-264): one question per selected category, formatted with the
project when the template mentions it, otherwise prefixed. -/
def projQLoop (pIdx : Nat) (project : Str) :
    List Cat5 → List Cat5 → Oracle → Nat →
    Except PyErr (List (QCat × Str) × List Cat5 × Nat)
  | [], used, _, i => .ok ([], used, i)
  | cat :: cats, used, o, i =>
    match randChoice o i (question_generators cat) with
    | none => .error .indexError
    | some (template, i1) =>
      let question :=
        if containsSub (str "{project}") template then
          formatMap [(str "{project}", project)] template
        else
          str "Regarding your " ++ project ++ str " project: " ++ template
      match projQLoop pIdx project cats (addSet used cat) o i1 with
      | .error e => .error e
      | .ok (qs, used1, i2) => .ok ((QCat.projectQ pIdx, question) :: qs, used1, i2)

/-- `generate_diverse_project_questions` (lines 241-266). -/
def generate_diverse_project_questions (pIdx : Nat) (project : Str)
    (used : List Cat5) (o : Oracle) (i : Nat) :
    Except PyErr (List (QCat × Str) × List Cat5 × Nat) :=
  let avail0 := [Cat5.project_specifics, Cat5.technical_deep_dive,
    Cat5.problem_solving].filter fun c => !used.contains c
  let available :=
    if avail0.isEmpty then [Cat5.project_specifics, Cat5.problem_solving]
    else avail0
  let s := randSample o i available (min 2 available.length)
  projQLoop pIdx project s.1 used o s.2

/-- Loop body of `generate_diverse_skill_questions` (lines 272-293);
`steps` counts the remaining iterations of `range(min(count, len(skills)))`
and `j` is the running index. -/
def skillQLoop (skills : List Str) :
    Nat → Nat → List Cat5 → Oracle → Nat →
    Except PyErr (List (QCat × Str) × List Cat5 × Nat)
  | _, 0, used, _, i => .ok ([], used, i)
  | j, steps + 1, used, o, i =>
    let skill := skills.getD j []
    let avail := [Cat5.technical_deep_dive, Cat5.practical_scenarios].filter
      fun c => !used.contains c || used.length > 3
    if avail.isEmpty then skillQLoop skills (j + 1) steps used o i
    else
      match randChoice o i avail with
      | none => .error .indexError
      | some (category, i1) =>
        match randChoice o i1 (question_generators category) with
        | none => .error .indexError
        | some (template, i2) =>
          let qRes : Except PyErr (Str × Nat) :=
            if containsSub (str "{skill}") template then
              .ok (formatMap [(str "{skill}", skill)] template, i2)
            else if containsSub (str "{skill1}") template && skills.length > 1 then
              match randChoice o i2 (skills.filter fun s => !(s == skill)) with
              | none => .error .indexError
              | some (skill2, i3) =>
                .ok (formatMap [(str "{skill1}", skill), (str "{skill2}", skill2)]
                  template, i3)
            else
              .ok (str "Considering your " ++ skill ++ str " experience: " ++
                template, i2)
          match qRes with
          | .error e => .error e
          | .ok (question, i4) =>
            match skillQLoop skills (j + 1) steps (addSet used category) o i4 with
            | .error e => .error e
            | .ok (qs, used1, i5) => .ok ((QCat.skillQ, question) :: qs, used1, i5)

/-- `generate_diverse_skill_questions` (lines 268-295). -/
def generate_diverse_skill_questions (skills : List Str) (count : Nat)
    (used : List Cat5) (o : Oracle) (i : Nat) :
    Except PyErr (List (QCat × Str) × List Cat5 × Nat) :=
  skillQLoop skills 0 (min count skills.length) used o i

/-- Loop body of `generate_diverse_general_questions` (lines 307-312);
`available` is fixed before the loop, `j` is the running index. -/
def generalQLoop (available : List Cat5) :
    Nat → Nat → List Cat5 → Oracle → Nat →
    Except PyErr (List (QCat × Str) × List Cat5 × Nat)
  | _, 0, used, _, i => .ok ([], used, i)
  | j, steps + 1, used, o, i =>
    match available with
    | [] => .error .indexError
    | a :: rest =>
      let category := (a :: rest).get
        ⟨j % (a :: rest).length, Nat.mod_lt _ (Nat.succ_pos _)⟩
      match randChoice o i (question_generators category) with
      | none => .error .indexError
      | some (template, i1) =>
        match generalQLoop (a :: rest) (j + 1) steps (addSet used category) o i1 with
        | .error e => .error e
        | .ok (qs, used1, i2) => .ok ((QCat.generalQ, template) :: qs, used1, i2)

/-- `generate_diverse_general_questions` (lines 297-314): the template is
appended verbatim. -/
def generate_diverse_general_questions (count : Nat) (used : List Cat5)
    (o : Oracle) (i : Nat) :
    Except PyErr (List (QCat × Str) × List Cat5 × Nat) :=
  let avail0 := [Cat5.problem_solving, Cat5.industry_knowledge,
    Cat5.practical_scenarios].filter fun c => !used.contains c
  let available :=
    if avail0.isEmpty then [Cat5.problem_solving, Cat5.industry_knowledge]
    else avail0
  generalQLoop available 0 count used o i

/-- Project loop of `generate_unique_questions` (lines 219-222): iterate
over `projects[:3]`, appending `project_questions[:2]` for each. -/
def projectsLoop : List Str → Nat → List Cat5 → Oracle → Nat →
    Except PyErr (List (QCat × Str) × List Cat5 × Nat)
  | [], _, used, _, i => .ok ([], used, i)
  | p :: ps, pIdx, used, o, i =>
    match generate_diverse_project_questions pIdx p used o i with
    | .error e => .error e
    | .ok (pqs, used1, i1) =>
      match projectsLoop ps (pIdx + 1) used1 o i1 with
      | .error e => .error e
      | .ok (qs, used2, i2) => .ok (pqs.take 2 ++ qs, used2, i2)

/-- Final block of `generate_unique_questions` (lines 233-239): fill any
remaining slots (`remaining2 = 10 - len(all_questions)`) with general
questions and truncate to 10. -/
def genStage3 (all1 : List (QCat × Str)) (used2 : List Cat5) (o : Oracle)
    (i2 : Nat) : Except PyErr (List (QCat × Str)) :=
  match (if 10 - all1.length > 0 then
           generate_diverse_general_questions (10 - all1.length) used2 o i2
         else .ok ([], used2, i2)) with
  | .error e => .error e
  | .ok (genQs, _, _) => .ok ((all1 ++ genQs).take 10)

/-- Skill block of `generate_unique_questions` (lines 224-231): when skills
are present and slots remain (`remaining = 10 - len(all_questions)`),
generate up to `remaining // 2` skill questions. -/
def genStage2 (projQs : List (QCat × Str)) (skills : List Str)
    (used : List Cat5) (o : Oracle) (i1 : Nat) :
    Except PyErr (List (QCat × Str)) :=
  match (if !skills.isEmpty && 10 - projQs.length > 0 then
           generate_diverse_skill_questions skills ((10 - projQs.length) / 2) used o i1
         else .ok ([], used, i1)) with
  | .error e => .error e
  | .ok (skillQs, used2, i2) => genStage3 (projQs ++ skillQs) used2 o i2

/-- `generate_unique_questions` (lines 210-239).  Only the `skills` and
`projects` keys of the analysis result are read by the source (lines
212-213); `experience` and `education` are part of the analysis result but
are never consulted. -/
def generate_unique_questions (skills projects : List Str)
    (experience education : Str) (o : Oracle) (i : Nat) :
    Except PyErr (List (QCat × Str)) :=
  match (if projects.isEmpty then .ok ([], [], i)
         else projectsLoop (projects.take 3) 0 [] o i) with
  | .error e => .error e
  | .ok (projQs, used, i1) => genStage2 projQs skills used o i1

/-
Position and degree extraction — `quiz_generator.py`, `extract_positions`
(lines 58-82) and `extract_degree_info` (lines 84-103).
-/

/-- First case-insensitive alternative (in pattern order) that matches at
the start of `text`; returns the original-case slice and the remainder.
The alternation lists below contain no alternative that is a prefix of
another, so committing to the first match is exact. -/
def ciAltPrefix (alts : List Str) (text : Str) : Option (Str × Str) :=
  match alts with
  | [] => none
  | a :: rest =>
    if ciPrefixAt a text then some (text.take a.length, text.drop a.length)
    else ciAltPrefix rest text

/-- Consume `\s+` (at least one whitespace character). -/
def eatWs1 (t : Str) : Option Str :=
  let ws := t.takeWhile isSpacePy
  if ws.isEmpty then none else some (t.drop ws.length)

/-- Consume a case-insensitive literal. -/
def eatCI (w t : Str) : Option Str :=
  if ciPrefixAt w t then some (t.drop w.length) else none

/-- `re.findall` driver for a matcher returning two groups and the
remainder: leftmost non-overlapping matches. -/
def findall2Fuel (m : Str → Option (Str × Str × Str)) : Nat → Str → List (Str × Str)
  | 0, _ => []
  | _ + 1, [] => []
  | f + 1, c :: t =>
    match m (c :: t) with
    | some (g1, g2, rest) => (g1, g2) :: findall2Fuel m f rest
    | none => findall2Fuel m f t

def findall2 (m : Str → Option (Str × Str × Str)) (text : Str) : List (Str × Str) :=
  findall2Fuel m (text.length + 1) text

/-- `re.findall` driver for a matcher returning one group. -/
def findall1Fuel (m : Str → Option (Str × Str)) : Nat → Str → List Str
  | 0, _ => []
  | _ + 1, [] => []
  | f + 1, c :: t =>
    match m (c :: t) with
    | some (g1, rest) => g1 :: findall1Fuel m f rest
    | none => findall1Fuel m f t

def findall1 (m : Str → Option (Str × Str)) (text : Str) : List Str :=
  findall1Fuel m (text.length + 1) text

/-- `(?i)(software|...|cloud)\s+(developer|engineer|architect|analyst|scientist)`
(line 65). -/
def matchPos1At (text : Str) : Option (Str × Str × Str) := do
  let (g1, t1) ← ciAltPrefix
    [str "software", str "web", str "mobile", str "frontend", str "backend",
     str "full-stack", str "data", str "machine learning", str "ai",
     str "devops", str "cloud"] text
  let t2 ← eatWs1 t1
  let (g2, rest) ← ciAltPrefix
    [str "developer", str "engineer", str "architect", str "analyst",
     str "scientist"] t2
  some (g1, g2, rest)

/-- `(?i)(senior|junior|lead|principal|associate)\s+\w+\s+(developer|engineer|analyst|manager)`
(line 66); the middle `\w+` is not captured. -/
def matchPos2At (text : Str) : Option (Str × Str × Str) := do
  let (g1, t1) ← ciAltPrefix
    [str "senior", str "junior", str "lead", str "principal", str "associate"] text
  let t2 ← eatWs1 t1
  let w := t2.takeWhile isWordChar
  if w.isEmpty then none
  else do
    let t3 ← eatWs1 (t2.drop w.length)
    let (g2, rest) ← ciAltPrefix
      [str "developer", str "engineer", str "analyst", str "manager"] t3
    some (g1, g2, rest)

/-- `(?i)(project|product|engineering|technical|development)\s+(manager|lead|coordinator)`
(line 67). -/
def matchPos3At (text : Str) : Option (Str × Str × Str) := do
  let (g1, t1) ← ciAltPrefix
    [str "project", str "product", str "engineering", str "technical",
     str "development"] text
  let t2 ← eatWs1 t1
  let (g2, rest) ← ciAltPrefix
    [str "manager", str "lead", str "coordinator"] t2
  some (g1, g2, rest)

/-- `(?i)(intern|trainee|consultant|specialist)\s+\w*` (line 68). -/
def matchPos4At (text : Str) : Option (Str × Str) := do
  let (g1, t1) ← ciAltPrefix
    [str "intern", str "trainee", str "consultant", str "specialist"] text
  let t2 ← eatWs1 t1
  some (g1, t2.drop (t2.takeWhile isWordChar).length)

/-- First-occurrence deduplication of exact strings.  CPython's
`list(set(xs))` iterates the set in an unspecified hash order; only
membership and emptiness of the result are relied on downstream, and this
model fixes the first-seen order. -/
def dedupeFirstGo : List Str → List Str → List Str
  | _, [] => []
  | seen, s :: rest =>
    if seen.contains s then dedupeFirstGo seen rest
    else s :: dedupeFirstGo (s :: seen) rest

def dedupeFirst (l : List Str) : List Str := dedupeFirstGo [] l

/-- `extract_positions` (lines 58-82): five patterns searched with
`re.findall`, tuples joined with a space, title-cased, deduplicated and
capped at 3. -/
def extract_positions (experience_text : Str) : List Str :=
  if experience_text.isEmpty then []
  else
    let ps :=
      (findall2 matchPos1At experience_text).map
        (fun g => titleStr (g.1 ++ [' '] ++ g.2)) ++
      (findall2 matchPos2At experience_text).map
        (fun g => titleStr (g.1 ++ [' '] ++ g.2)) ++
      (findall2 matchPos3At experience_text).map
        (fun g => titleStr (g.1 ++ [' '] ++ g.2)) ++
      (findall1 matchPos4At experience_text).map titleStr ++
      (findallWB [str "developer", str "engineer", str "analyst", str "manager",
        str "coordinator", str "specialist", str "consultant", str "architect",
        str "designer"] experience_text).map titleStr
    (dedupeFirst ps).take 3

/-- Backtracking tail `\s+([^.\n,]+)` shared by the degree patterns: the
greedy `\s+` is retried from the longest whitespace split down (the group
class contains whitespace but not `\n`, so shorter splits can succeed). -/
def degTailBack (ws rest : Str) : Nat → Option (Str × Str)
  | 0 => none
  | k + 1 =>
    let region := ws.drop (k + 1) ++ rest
    let g2 := region.takeWhile fun c => !(c = '.' || c = '\n' || c = ',')
    if g2.isEmpty then degTailBack ws rest k
    else some (g2, region.drop g2.length)

def degTail (t : Str) : Option (Str × Str) :=
  let ws := t.takeWhile isSpacePy
  if ws.isEmpty then none
  else degTailBack ws (t.drop ws.length) ws.length

/-- `(?i)(bachelor|master|phd|doctorate)(?:\s+of|\s+in|\s+of\s+science|\s+of\s+arts|\s+of\s+engineering|\s+of\s+technology)?\s+([^.\n,]+)`
(line 90); the optional connective alternatives are tried in pattern order
and then skipped, each followed by the group tail. -/
def matchDeg1At (text : Str) : Option (Str × Str × Str) := do
  let (g1, t1) ← ciAltPrefix
    [str "bachelor", str "master", str "phd", str "doctorate"] text
  let conns : List (Str → Option Str) :=
    [ fun t => eatWs1 t >>= eatCI (str "of"),
      fun t => eatWs1 t >>= eatCI (str "in"),
      fun t => eatWs1 t >>= eatCI (str "of") >>= eatWs1 >>= eatCI (str "science"),
      fun t => eatWs1 t >>= eatCI (str "of") >>= eatWs1 >>= eatCI (str "arts"),
      fun t => eatWs1 t >>= eatCI (str "of") >>= eatWs1 >>= eatCI (str "engineering"),
      fun t => eatWs1 t >>= eatCI (str "of") >>= eatWs1 >>= eatCI (str "technology") ]
  match firstSome (conns.map fun c => c t1 >>= degTail) with
  | some (g2, rest) => some (g1, g2, rest)
  | none =>
    match degTail t1 with
    | some (g2, rest) => some (g1, g2, rest)
    | none => none

/-- Single character of the class `[satechm]`, case-insensitively. -/
def eatSAT : Str → Option Str
  | [] => none
  | c :: t =>
    if c.toLower = 's' || c.toLower = 'a' || c.toLower = 't' || c.toLower = 'e' ||
        c.toLower = 'c' || c.toLower = 'h' || c.toLower = 'm' then some t
    else none

/-- The four greedy variants of `\.?[satechm]\.?` after the leading letter,
in the order `re` tries them (dots taken before skipped). -/
def deg2Var (t1 : Str) : List (Option Str) :=
  [ (eatChar '.' t1).bind eatSAT >>= eatChar '.',
    (eatChar '.' t1).bind eatSAT,
    (eatSAT t1).bind (eatChar '.'),
    eatSAT t1 ]

/-- Attach the degree tail to the first variant that completes. -/
def deg2Try (text : Str) (restOpts : List (Option Str)) : Option (Str × Str × Str) :=
  firstSome (restOpts.map fun ro =>
    ro.bind fun t2 =>
      (degTail t2).map fun p => (text.take (text.length - t2.length), p.1, p.2))

/-- `(?i)(b\.?[satechm]\.?|m\.?[satechm]\.?|associate)\s+([^.\n,]+)` (line 91). -/
def matchDeg2At (text : Str) : Option (Str × Str × Str) :=
  match text with
  | [] => none
  | c :: t1 =>
    if c.toLower = 'b' || c.toLower = 'm' then deg2Try text (deg2Var t1)
    else if ciPrefixAt (str "associate") text then
      (degTail (text.drop 9)).map fun p => (text.take 9, p.1, p.2)
    else none

/-- `(?i)(diploma|certificate)\s+in\s+([^.\n,]+)` (line 92). -/
def matchDeg3At (text : Str) : Option (Str × Str × Str) := do
  let (g1, t1) ← ciAltPrefix [str "diploma", str "certificate"] text
  let t2 ← eatWs1 t1
  let t3 ← eatCI (str "in") t2
  let (g2, rest) ← degTail t3
  some (g1, g2, rest)

/-- `extract_degree_info` (lines 84-103): three findall patterns, the two
groups joined with a space, stripped and title-cased, deduplicated and
capped at 2. -/
def extract_degree_info (education_text : Str) : List Str :=
  if education_text.isEmpty then []
  else
    let ds :=
      (findall2 matchDeg1At education_text ++ findall2 matchDeg2At education_text ++
        findall2 matchDeg3At education_text).map
        fun g => titleStr (strip (g.1 ++ [' '] ++ g.2))
    (dedupeFirst ds).take 2

/-
Old-style question generators — `quiz_generator.py` lines 105-208.

`QuizGenerator.__init__` (lines 8-56) assigns only `question_generators`;
`self.question_templates`, read by every old-style generator, is therefore
an undefined attribute and looking it up raises `AttributeError`.  The
lookup is modelled as the `Except` action below; the code that would run
after a successful lookup is written out normally and is unreachable. -/
def question_templates (key : Str) : Except PyErr (List Str) :=
  .error .attributeError

/-- `clean_project_name` (lines 105-123). -/
def clean_project_name (project : Str) : Str :=
  let p := project.dropWhile isProjBulletChar
  let p := (splitOnChar '\n' p).headD []
  let p := (splitOnChar '.' p).headD []
  let p := if p.length > 60 then p.take 60 ++ str "..." else p
  strip p

/-- Per-skill loop of `generate_skill_questions` (lines 133-136). -/
def oldSkillLoop : List Str → Oracle → Nat → Except PyErr (List Str × Nat)
  | [], _, i => .ok ([], i)
  | skill :: rest, o, i =>
    match question_templates (str "technical_skills") with
    | .error e => .error e
    | .ok ts =>
      match randChoice o i ts with
      | none => .error .indexError
      | some (template, i1) =>
        match oldSkillLoop rest o i1 with
        | .error e => .error e
        | .ok (qs, i2) =>
          .ok (formatMap [(str "{skill}", skill)] template :: qs, i2)

/-- `generate_skill_questions` (lines 125-138). -/
def generate_skill_questions (skills : List Str) (count : Nat) (o : Oracle)
    (i : Nat) : Except PyErr (List Str × Nat) :=
  if skills.isEmpty || count == 0 then .ok ([], i)
  else
    let s := randSample o i skills (min skills.length count)
    oldSkillLoop s.1 o s.2

/-- Loop of `generate_experience_questions` (lines 150-154); `steps` counts
the remaining iterations of `range(min(count, len(positions)))`, `j` the
running index. -/
def oldExpLoop (positions : List Str) : Nat → Nat → Oracle → Nat →
    Except PyErr (List Str × Nat)
  | 0, _, _, i => .ok ([], i)
  | steps + 1, j, o, i =>
    let position := positions.getD (j % positions.length) []
    match question_templates (str "experience") with
    | .error e => .error e
    | .ok ts =>
      match randChoice o i ts with
      | none => .error .indexError
      | some (template, i1) =>
        match oldExpLoop positions steps (j + 1) o i1 with
        | .error e => .error e
        | .ok (qs, i2) =>
          .ok (formatMap [(str "{position}", position)] template :: qs, i2)

/-- `generate_experience_questions` (lines 140-156). -/
def generate_experience_questions (experience_text : Str) (count : Nat)
    (o : Oracle) (i : Nat) : Except PyErr (List Str × Nat) :=
  if experience_text.isEmpty || count == 0 then .ok ([], i)
  else
    let positions := extract_positions experience_text
    if positions.isEmpty then .ok ([], i)
    else oldExpLoop positions (min count positions.length) 0 o i

/-- Inner two-template loop of `generate_project_questions` (lines 171-180). -/
def oldProjInner (cleanName : Str) (usedT : List Str) : Nat → Oracle → Nat →
    Except PyErr (List Str × Nat)
  | 0, _, i => .ok ([], i)
  | n + 1, o, i =>
    match question_templates (str "projects") with
    | .error e => .error e
    | .ok ts =>
      let avail0 := ts.filter fun t => !usedT.contains t
      let avail := if avail0.isEmpty then ts else avail0
      match randChoice o i avail with
      | none => .error .indexError
      | some (template, i1) =>
        match oldProjInner cleanName (usedT ++ [template]) n o i1 with
        | .error e => .error e
        | .ok (qs, i2) =>
          .ok (formatMap [(str "{project}", cleanName)] template :: qs, i2)

/-- Outer loop of `generate_project_questions` (lines 167-180). -/
def oldProjLoop : List Str → Oracle → Nat → Except PyErr (List Str × Nat)
  | [], _, i => .ok ([], i)
  | p :: ps, o, i =>
    match oldProjInner (clean_project_name p) [] 2 o i with
    | .error e => .error e
    | .ok (qs, i1) =>
      match oldProjLoop ps o i1 with
      | .error e => .error e
      | .ok (qs2, i2) => .ok (qs ++ qs2, i2)

/-- `generate_project_questions` (lines 158-182): `count // 2` projects are
selected before any template is consulted. -/
def generate_project_questions (projects : List Str) (count : Nat)
    (o : Oracle) (i : Nat) : Except PyErr (List Str × Nat) :=
  if projects.isEmpty || count == 0 then .ok ([], i)
  else oldProjLoop (projects.take (count / 2)) o i

/-- Loop of `generate_education_questions` (lines 193-198). -/
def oldEduLoop (degrees : List Str) : Nat → Nat → Oracle → Nat →
    Except PyErr (List Str × Nat)
  | 0, _, _, i => .ok ([], i)
  | steps + 1, j, o, i =>
    let degree := degrees.getD (j % degrees.length) []
    match question_templates (str "education") with
    | .error e => .error e
    | .ok ts =>
      match randChoice o i ts with
      | none => .error .indexError
      | some (template, i1) =>
        match oldEduLoop degrees steps (j + 1) o i1 with
        | .error e => .error e
        | .ok (qs, i2) =>
          .ok (formatMap [(str "{degree}", degree)] template :: qs, i2)

/-- `generate_education_questions` (lines 184-200). -/
def generate_education_questions (education_text : Str) (count : Nat)
    (o : Oracle) (i : Nat) : Except PyErr (List Str × Nat) :=
  if education_text.isEmpty || count == 0 then .ok ([], i)
  else
    let degrees := extract_degree_info education_text
    if degrees.isEmpty then .ok ([], i)
    else oldEduLoop degrees (min count degrees.length) 0 o i

/-- `generate_soft_skill_questions` (lines 202-208): the attribute lookup
happens inside the `random.sample` argument as soon as `count > 0`. -/
def generate_soft_skill_questions (count : Nat) (o : Oracle) (i : Nat) :
    Except PyErr (List Str × Nat) :=
  if count == 0 then .ok ([], i)
  else
    match question_templates (str "soft_skills") with
    | .error e => .error e
    | .ok ts =>
      let s := randSample o i ts (min count ts.length)
      .ok (s.1, s.2)

/-
Theorems.
-/

theorem strip_all_space {l : Str} (h : l.all isSpacePy) : strip l = [] := by
  unfold strip
  have h1 : l.dropWhile isSpacePy = [] := by
    rw [List.dropWhile_eq_nil_iff]
    intro x hx
    exact List.all_eq_true.mp h x hx
  rw [h1]
  rfl

/-- C5: for every text in which at least 2 distinct non-résumé indicator
patterns match, `validate_document_type` rejects with the official-document
reason, regardless of how many résumé indicator patterns also match — the
non-résumé check is evaluated before the résumé-indicator count is even
computed. -/
theorem C5_official_doc_rejection (text : Str)
    (h : 2 ≤ countIndicators non_resume_indicators (lowerStr text)) :
    validate_document_type text = .reject officialDocMsg := by
  unfold validate_document_type
  rw [if_pos h]

theorem C5_official_doc_rejection_witness :
    validate_document_type
      (str "Offer Letter. Dear candidate, congratulations on your resume, degree and contact info") =
      .reject officialDocMsg :=
  C5_official_doc_rejection _ (by decide)

/-- C8: whenever both extraction strategies return empty or whitespace-only
text, `analyze_resume` returns the unreadable/corrupted/password-protected
rejection without reaching classification or field extraction. -/
theorem C8_unreadable_rejection (p s : Str)
    (hp : p.all isSpacePy) (hs : s.all isSpacePy) :
    analyze_resume p s = .invalid unreadableMsg := by
  unfold analyze_resume extract_text
  rw [strip_all_space hp]
  simp [strip_all_space hs]

theorem C8_unreadable_rejection_witness :
    analyze_resume (str "   ") (str "\t\n") = .invalid unreadableMsg :=
  C8_unreadable_rejection _ _ (by decide) (by decide)

theorem searchLen_none (f : Str → Option Nat) (P : Char → Bool)
    (hnil : f [] = none) (hf : ∀ c t, P c = true → f (c :: t) = none) :
    ∀ text : Str, text.all P = true → searchLen f text = none := by
  intro text
  induction text with
  | nil => intro _; simp [searchLen, hnil]
  | cons c t ih =>
    intro h
    simp only [List.all_cons, Bool.and_eq_true] at h
    simp [searchLen, hf c t h.1, ih h.2]

/-- Characters that can start none of the four phone patterns. -/
def noPhoneStart (c : Char) : Bool := !(c = '+') && !(c = '(')

theorem mp1_none (c : Char) (t : Str) (h : noPhoneStart c = true) :
    matchPhone1At (c :: t) = none := by
  simp only [noPhoneStart, Bool.and_eq_true, Bool.not_eq_true', decide_eq_false_iff_not] at h
  simp [matchPhone1At, h.1]

theorem mp2_none (c : Char) (t : Str) (h : noPhoneStart c = true) :
    matchPhone2At (c :: t) = none := by
  simp only [noPhoneStart, Bool.and_eq_true, Bool.not_eq_true', decide_eq_false_iff_not] at h
  simp [matchPhone2At, h.1]

theorem mp3_none (c : Char) (t : Str) (h : noPhoneStart c = true) :
    matchPhone3At (c :: t) = none := by
  simp only [noPhoneStart, Bool.and_eq_true, Bool.not_eq_true', decide_eq_false_iff_not] at h
  simp [matchPhone3At, h.1]

theorem mpp_none (c : Char) (t : Str) (h : noPhoneStart c = true) :
    matchPhoneParenAt (c :: t) = none := by
  simp only [noPhoneStart, Bool.and_eq_true, Bool.not_eq_true', decide_eq_false_iff_not] at h
  simp [matchPhoneParenAt, eatChar, h.2]

/-- C6 (counterexample): a bare ten-digit number with leading digit 9 is
claimed to yield canonical Indian format, but no phone pattern matches a
digit run without `+` or `(`, so the field stays empty. -/
theorem C6_bare_number_cex :
    extract_phone (str "My number is 9876543210") = [] ∧
    ([] : Str) ≠ str "+91 9876543210" := by
  refine ⟨by decide, by decide⟩

/-- C6 (amended): patterns are tried in fixed priority order and a text
containing `+91 9876543210` yields that canonical value; a text without `+`
and `(` (in particular one whose only candidate is a bare ten-digit number)
leaves the field empty; the no-country-code heuristic applies only to
parenthesized `(XXX) XXX-XXXX` matches, which become `+91 <digits>` when
the leading digit is 6-9 and `+1 (XXX) XXX-XXXX` when it is 2-5; no
partially-validated value is ever emitted. -/
theorem C6_phone_priority_amended :
    extract_phone (str "Contact: +91 9876543210") = str "+91 9876543210" ∧
    (∀ text : Str, text.all noPhoneStart = true → extract_phone text = []) ∧
    extract_phone (str "(654) 321-0987") = str "+91 6543210987" ∧
    extract_phone (str "(254) 321-0987") = str "+1 (254) 321-0987" := by
  refine ⟨by decide, ?_, by decide, by decide⟩
  intro text h
  have h1 := searchLen_none matchPhone1At noPhoneStart rfl mp1_none text h
  have h2 := searchLen_none matchPhone2At noPhoneStart rfl mp2_none text h
  have h3 := searchLen_none matchPhone3At noPhoneStart rfl mp3_none text h
  have h4 := searchLen_none matchPhoneParenAt noPhoneStart
    (by simp [matchPhoneParenAt, eatChar]) mpp_none text h
  unfold extract_phone
  rw [h1, h2, h3, h4]
  rfl

theorem C6_phone_priority_amended_witness :
    extract_phone (str "9876543210") = [] :=
  C6_phone_priority_amended.2.1 (str "9876543210") (by decide)

theorem addr_result (text : Str) :
    extract_address text = [] ∨ addressChecks (extract_address text) = true := by
  unfold extract_address
  cases h1 : searchLen matchAddr1At text with
  | none =>
    simp only [h1]
    cases h2 : searchLen matchAddr2At text with
    | none => left; rfl
    | some m2 =>
      simp only [h2]
      by_cases hc2 : addressChecks (strip m2) = true
      · right; rw [if_pos hc2]; exact hc2
      · left; rw [if_neg hc2]
  | some m =>
    simp only [h1]
    by_cases hc : addressChecks (strip m) = true
    · right; rw [if_pos hc]; exact hc
    · rw [if_neg hc]
      cases h2 : searchLen matchAddr2At text with
      | none => left; rfl
      | some m2 =>
        simp only [h2]
        by_cases hc2 : addressChecks (strip m2) = true
        · right; rw [if_pos hc2]; exact hc2
        · left; rw [if_neg hc2]

/-- C9 (counterexample): the claim says a line containing `@` never
populates the address field, but the noise check applies to the matched
address string, not its line: this single-line text contains `@` and still
yields a populated address. -/
theorem C9_address_from_at_line_cex :
    containsSub (str "@") (str "a@b.com 123 Main North Street, Springfield, IL 62704") = true ∧
    (str "a@b.com 123 Main North Street, Springfield, IL 62704").all
      (fun c => !(c = '\n')) = true ∧
    extract_address (str "a@b.com 123 Main North Street, Springfield, IL 62704") =
      str "123 Main North Street, Springfield, IL 62704" :=
  ⟨by decide, by decide, by decide⟩

/-- C9 (amended): a non-empty extracted address always passed the strict
validation on the matched string itself — length strictly between 20 and
80, a comma, a 5-digit ZIP run and no noise substring (`email`, `phone`,
`linkedin`, `github`, `http`, `@`); in particular the matched address never
contains `@`.  A line's `@` or `http` outside the matched substring does
not block extraction; when nothing validates the field stays empty. -/
theorem C9_address_checks_amended (text : Str) (h : extract_address text ≠ []) :
    addressChecks (extract_address text) = true ∧
    containsSub (str "@") (lowerStr (extract_address text)) = false := by
  have h1 := (addr_result text).resolve_left h
  refine ⟨h1, ?_⟩
  unfold addressChecks at h1
  simp only [Bool.and_eq_true, Bool.not_eq_true', List.any_eq_false] at h1
  have h2 := h1.2
  simp at h2
  exact h2.2.2.2.2.2

theorem C9_address_checks_amended_witness :
    addressChecks (extract_address (str "lives at 10 Oak Avenue, Dallas, TX 75201 now")) = true ∧
    containsSub (str "@")
      (lowerStr (extract_address (str "lives at 10 Oak Avenue, Dallas, TX 75201 now"))) = false :=
  C9_address_checks_amended _ (by decide)

theorem dedupeCIGo_sublist (l : List Str) : ∀ seen, (dedupeCIGo seen l).Sublist l := by
  induction l with
  | nil => intro seen; simp [dedupeCIGo]
  | cons s rest ih =>
    intro seen
    unfold dedupeCIGo
    by_cases h : seen.contains (lowerStr s) = true
    · rw [if_pos h]; exact (ih seen).cons s
    · rw [if_neg h]; exact (ih _).cons₂ s

theorem dedupeCIGo_not_seen (l : List Str) :
    ∀ seen x, x ∈ dedupeCIGo seen l → lowerStr x ∉ seen := by
  induction l with
  | nil => intro seen x hx; simp [dedupeCIGo] at hx
  | cons s rest ih =>
    intro seen x hx
    unfold dedupeCIGo at hx
    by_cases h : seen.contains (lowerStr s) = true
    · rw [if_pos h] at hx; exact ih seen x hx
    · rw [if_neg h] at hx
      cases hx with
      | head =>
        intro hmem
        exact h (List.elem_iff.mpr hmem)
      | tail _ hx2 =>
        have h2 := ih _ x hx2
        intro hmem
        exact h2 (List.mem_cons_of_mem _ hmem)

theorem dedupeCIGo_pairwise (l : List Str) :
    ∀ seen, (dedupeCIGo seen l).Pairwise (fun a b => lowerStr a ≠ lowerStr b) := by
  induction l with
  | nil => intro seen; simp [dedupeCIGo]
  | cons s rest ih =>
    intro seen
    unfold dedupeCIGo
    by_cases h : seen.contains (lowerStr s) = true
    · rw [if_pos h]; exact ih seen
    · rw [if_neg h]
      refine List.Pairwise.cons ?_ (ih _)
      intro b hb heq
      have h2 := dedupeCIGo_not_seen rest _ b hb
      exact h2 (by rw [← heq]; exact List.mem_cons_self _ _)

/-- C7: for every text the extracted skill list has at most 12 entries, no
two entries are equal case-insensitively, and it is a subsequence of the
vocabulary-scan hits followed by the pattern-scan hits (first-seen order
preserved, category scan before pattern scan); a text containing both
`Python` and `python` yields the single entry `Python`. -/
theorem C7_skill_invariants :
    (∀ text : Str,
      (extract_skills text).length ≤ 12 ∧
      (extract_skills text).Pairwise (fun a b => lowerStr a ≠ lowerStr b) ∧
      (extract_skills text).Sublist (vocabScan text ++ patternScan text)) ∧
    extract_skills (str "I know Python and python well") = [str "Python"] := by
  refine ⟨fun text => ⟨?_, ?_, ?_⟩, by decide⟩
  · unfold extract_skills
    rw [List.length_take]
    omega
  · exact List.Pairwise.sublist (List.take_sublist _ _) (dedupeCIGo_pairwise _ [])
  · exact (List.take_sublist _ _).trans (dedupeCIGo_sublist _ [])


theorem randSample_length (o : Oracle) : ∀ (k i : Nat) (xs : List α),
    (randSample o i xs k).1.length = min k xs.length := by
  intro k
  induction k with
  | zero => intro i xs; simp [randSample]
  | succ n ih =>
    intro i xs
    cases xs with
    | nil => simp [randSample]
    | cons x rest =>
      simp only [randSample, List.length_cons]
      rw [ih, List.length_eraseIdx]
      have hlt : o i % (rest.length + 1) < rest.length + 1 := Nat.mod_lt _ (Nat.succ_pos _)
      simp only [List.length_cons]
      rw [if_pos hlt]
      omega

/-- C10 (counterexample): the claim counts `count > 0` with a non-empty
project list as reaching template selection, but
`generate_project_questions` selects `count // 2` projects, so a call with
`count == 1` selects none and returns `[]` without raising
`AttributeError`. -/
theorem C10_project_count_one_cex :
    generate_project_questions [str "Resume Analyzer Tool"] 1 (fun _ => 0) 0 =
      .ok ([], 0) ∧
    (Except.ok ([], 0) : Except PyErr (List Str × Nat)) ≠ .error .attributeError :=
  ⟨by decide, by decide⟩

/-- C10 (amended): every call of the five old-style generators that reaches
template selection raises `AttributeError`, because they read
`self.question_templates`, never assigned by `QuizGenerator.__init__`
(only `question_generators` is).  Reaching template selection means:
non-empty skills and `count > 0`; a non-empty extracted position list and
`count > 0`; non-empty projects and `count ≥ 2` (the generator selects
`count // 2` projects); a non-empty extracted degree list and `count > 0`;
and `count > 0` for soft skills. -/
theorem C10_attribute_error_amended :
    (∀ (skills : List Str) (count : Nat) (o : Oracle) (i : Nat),
      skills ≠ [] → 0 < count →
      generate_skill_questions skills count o i = .error .attributeError) ∧
    (∀ (t : Str) (count : Nat) (o : Oracle) (i : Nat),
      extract_positions t ≠ [] → 0 < count →
      generate_experience_questions t count o i = .error .attributeError) ∧
    (∀ (projects : List Str) (count : Nat) (o : Oracle) (i : Nat),
      projects ≠ [] → 2 ≤ count →
      generate_project_questions projects count o i = .error .attributeError) ∧
    (∀ (t : Str) (count : Nat) (o : Oracle) (i : Nat),
      extract_degree_info t ≠ [] → 0 < count →
      generate_education_questions t count o i = .error .attributeError) ∧
    (∀ (count : Nat) (o : Oracle) (i : Nat),
      0 < count → generate_soft_skill_questions count o i = .error .attributeError) := by
  refine ⟨?_, ?_, ?_, ?_, ?_⟩
  · intro skills count o i hne hpos
    unfold generate_skill_questions
    rw [if_neg (by simp [hne]; omega)]
    show oldSkillLoop (randSample o i skills (min skills.length count)).1 o
      (randSample o i skills (min skills.length count)).2 = .error .attributeError
    cases hs : (randSample o i skills (min skills.length count)).1 with
    | nil =>
      have hlen := randSample_length o (min skills.length count) i skills
      rw [hs] at hlen
      simp only [List.length_nil] at hlen
      have hsk : skills.length ≠ 0 := fun h => hne (List.length_eq_zero.mp h)
      omega
    | cons y ys => rfl
  · intro t count o i hpos hcnt
    have htne : ¬t.isEmpty = true := by
      intro h
      rw [List.isEmpty_iff.mp h] at hpos
      exact hpos rfl
    unfold generate_experience_questions
    rw [if_neg (by simp [htne]; omega)]
    rw [if_neg (by simp [hpos])]
    have hmin : 0 < min count (extract_positions t).length := by
      have := List.length_pos.mpr hpos
      omega
    obtain ⟨m, hm⟩ := Nat.exists_eq_succ_of_ne_zero (Nat.pos_iff_ne_zero.mp hmin)
    rw [hm]
    rfl
  · intro projects count o i hne hcnt
    unfold generate_project_questions
    rw [if_neg (by simp [hne]; omega)]
    obtain ⟨p, ps, hp⟩ := List.exists_cons_of_ne_nil hne
    have h2 : 1 ≤ count / 2 := Nat.one_le_div_iff (by omega) |>.mpr hcnt
    obtain ⟨m, hm⟩ := Nat.exists_eq_succ_of_ne_zero (by omega : count / 2 ≠ 0)
    rw [hp, hm]
    show oldProjLoop (p :: ps.take m) o i = .error .attributeError
    rfl
  · intro t count o i hpos hcnt
    have htne : ¬t.isEmpty = true := by
      intro h
      rw [List.isEmpty_iff.mp h] at hpos
      exact hpos rfl
    unfold generate_education_questions
    rw [if_neg (by simp [htne]; omega)]
    rw [if_neg (by simp [hpos])]
    have hmin : 0 < min count (extract_degree_info t).length := by
      have := List.length_pos.mpr hpos
      omega
    obtain ⟨m, hm⟩ := Nat.exists_eq_succ_of_ne_zero (Nat.pos_iff_ne_zero.mp hmin)
    rw [hm]
    rfl
  · intro count o i hpos
    unfold generate_soft_skill_questions
    rw [if_neg (by simp; omega)]
    rfl

theorem C10_attribute_error_amended_witness :
    generate_skill_questions [str "Python"] 1 (fun _ => 0) 0 = .error .attributeError ∧
    generate_experience_questions (str "software engineer") 1 (fun _ => 0) 0 =
      .error .attributeError ∧
    generate_project_questions [str "Resume Analyzer Tool"] 2 (fun _ => 0) 0 =
      .error .attributeError ∧
    generate_education_questions (str "bachelor of science") 1 (fun _ => 0) 0 =
      .error .attributeError ∧
    generate_soft_skill_questions 1 (fun _ => 0) 0 = .error .attributeError :=
  ⟨C10_attribute_error_amended.1 _ _ _ _ (by decide) (by decide),
   C10_attribute_error_amended.2.1 _ _ _ _ (by decide) (by decide),
   C10_attribute_error_amended.2.2.1 _ _ _ _ (by decide) (by decide),
   C10_attribute_error_amended.2.2.2.1 _ _ _ _ (by decide) (by decide),
   C10_attribute_error_amended.2.2.2.2 _ _ _ (by decide)⟩

theorem qg_ne_nil : ∀ c : Cat5, question_generators c ≠ [] := by
  intro c
  cases c <;> simp [question_generators]

theorem projQLoop_ok (pIdx : Nat) (project : Str) :
    ∀ (cats used : List Cat5) (o : Oracle) (i : Nat),
    ∃ qs used2 i2, projQLoop pIdx project cats used o i = .ok (qs, used2, i2) ∧
      qs.length = cats.length ∧ ∀ q ∈ qs, q.1 = QCat.projectQ pIdx := by
  intro cats
  induction cats with
  | nil => intro used o i; exact ⟨[], used, i, rfl, rfl, by simp⟩
  | cons cat cats ih =>
    intro used o i
    have hne := qg_ne_nil cat
    cases hqg : question_generators cat with
    | nil => exact absurd hqg hne
    | cons t ts =>
      obtain ⟨qs, used2, i2, hrec, hlen, htags⟩ := ih (addSet used cat) o (i + 1)
      have hch : randChoice o i (question_generators cat) =
          some ((t :: ts).get ⟨o i % (t :: ts).length, Nat.mod_lt _ (Nat.succ_pos _)⟩, i + 1) := by
        rw [hqg]; rfl
      refine ⟨(QCat.projectQ pIdx,
        if containsSub (str "{project}")
            ((t :: ts).get ⟨o i % (t :: ts).length, Nat.mod_lt _ (Nat.succ_pos _)⟩) then
          formatMap [(str "{project}", project)]
            ((t :: ts).get ⟨o i % (t :: ts).length, Nat.mod_lt _ (Nat.succ_pos _)⟩)
        else str "Regarding your " ++ project ++ str " project: " ++
          ((t :: ts).get ⟨o i % (t :: ts).length, Nat.mod_lt _ (Nat.succ_pos _)⟩)) :: qs,
        used2, i2, ?_, by simp [hlen], ?_⟩
      · simp only [projQLoop, hch, hrec]
      · intro q hq
        rcases List.mem_cons.mp hq with h | h
        · rw [h]
        · exact htags q h

theorem if_isEmpty_ne_nil (l0 : List Cat5) (a b : Cat5) :
    (if l0.isEmpty then [a, b] else l0) ≠ [] := by
  by_cases h : l0.isEmpty
  · simp [h]
  · simp [h]
    intro hc
    rw [hc] at h
    exact h rfl

theorem gdpq_ok (pIdx : Nat) (project : Str) (used : List Cat5) (o : Oracle) (i : Nat) :
    ∃ qs used2 i2,
      generate_diverse_project_questions pIdx project used o i = .ok (qs, used2, i2) ∧
      1 ≤ qs.length ∧ qs.length ≤ 2 ∧ ∀ q ∈ qs, q.1 = QCat.projectQ pIdx := by
  unfold generate_diverse_project_questions
  obtain ⟨qs, used2, i2, heq, hlen, htags⟩ :=
    projQLoop_ok pIdx project
      (randSample o i
        (if ([Cat5.project_specifics, Cat5.technical_deep_dive,
              Cat5.problem_solving].filter fun c => !used.contains c).isEmpty then
          [Cat5.project_specifics, Cat5.problem_solving]
        else [Cat5.project_specifics, Cat5.technical_deep_dive,
              Cat5.problem_solving].filter fun c => !used.contains c)
        (min 2 (if ([Cat5.project_specifics, Cat5.technical_deep_dive,
              Cat5.problem_solving].filter fun c => !used.contains c).isEmpty then
          [Cat5.project_specifics, Cat5.problem_solving]
        else [Cat5.project_specifics, Cat5.technical_deep_dive,
              Cat5.problem_solving].filter fun c => !used.contains c).length)).1
      used o
      (randSample o i
        (if ([Cat5.project_specifics, Cat5.technical_deep_dive,
              Cat5.problem_solving].filter fun c => !used.contains c).isEmpty then
          [Cat5.project_specifics, Cat5.problem_solving]
        else [Cat5.project_specifics, Cat5.technical_deep_dive,
              Cat5.problem_solving].filter fun c => !used.contains c)
        (min 2 (if ([Cat5.project_specifics, Cat5.technical_deep_dive,
              Cat5.problem_solving].filter fun c => !used.contains c).isEmpty then
          [Cat5.project_specifics, Cat5.problem_solving]
        else [Cat5.project_specifics, Cat5.technical_deep_dive,
              Cat5.problem_solving].filter fun c => !used.contains c).length)).2
  refine ⟨qs, used2, i2, heq, ?_, ?_, htags⟩
  · rw [hlen, randSample_length]
    have h1 := List.length_pos.mpr (if_isEmpty_ne_nil
      ([Cat5.project_specifics, Cat5.technical_deep_dive,
        Cat5.problem_solving].filter fun c => !used.contains c)
      Cat5.project_specifics Cat5.problem_solving)
    omega
  · rw [hlen, randSample_length]
    omega

theorem projectsLoop_ok :
    ∀ (ps : List Str) (pIdx : Nat) (used : List Cat5) (o : Oracle) (i : Nat),
    ∃ (blocks : List (List (QCat × Str))) (used2 : List Cat5) (i2 : Nat),
      projectsLoop ps pIdx used o i = .ok (blocks.flatten, used2, i2) ∧
      blocks.length = ps.length ∧
      (∀ bl ∈ blocks, 1 ≤ bl.length ∧ bl.length ≤ 2) ∧
      (∀ k, ∀ q ∈ blocks.getD k [], q.1 = QCat.projectQ (pIdx + k)) := by
  intro ps
  induction ps with
  | nil =>
    intro pIdx used o i
    exact ⟨[], used, i, rfl, rfl, by simp, by simp⟩
  | cons p ps ih =>
    intro pIdx used o i
    obtain ⟨qs, used1, i1, heq1, h1, h2, htags⟩ := gdpq_ok pIdx p used o i
    obtain ⟨blocks, used2, i2, heq2, hblen, hbsz, hbtags⟩ := ih (pIdx + 1) used1 o i1
    have htake : qs.take 2 = qs := List.take_of_length_le h2
    refine ⟨qs :: blocks, used2, i2, ?_, by simp [hblen], ?_, ?_⟩
    · unfold projectsLoop
      simp only [heq1, heq2, htake, List.flatten_cons]
    · intro bl hbl
      rcases List.mem_cons.mp hbl with h | h
      · rw [h]; exact ⟨h1, h2⟩
      · exact hbsz bl h
    · intro k q hq
      cases k with
      | zero =>
        have hqin : q ∈ qs := by simpa using hq
        simpa using htags q hqin
      | succ m =>
        have hq2 : q ∈ blocks.getD m [] := by simpa using hq
        have := hbtags m q hq2
        rw [this]
        congr 1
        omega

theorem pairwise_exists_other {l : List Str} (hp : l.Pairwise (fun a b => a ≠ b))
    (hlen : 1 < l.length) (x : Str) : ∃ y ∈ l, y ≠ x := by
  rcases l with _ | ⟨a, _ | ⟨b, t⟩⟩
  · simp at hlen
  · simp at hlen
  · have hab : a ≠ b := (List.pairwise_cons.mp hp).1 b (by simp)
    by_cases hxa : x = a
    · exact ⟨b, by simp, by rw [hxa]; exact fun h => hab h.symm⟩
    · exact ⟨a, by simp, fun h => hxa h.symm⟩

theorem filter_ne_nonempty {l : List Str} (hp : l.Pairwise (fun a b => a ≠ b))
    (hlen : 1 < l.length) (x : Str) : l.filter (fun s => !(s == x)) ≠ [] := by
  obtain ⟨y, hy, hne⟩ := pairwise_exists_other hp hlen x
  intro hnil
  have hm : y ∈ l.filter (fun s => !(s == x)) :=
    List.mem_filter.mpr ⟨hy, by simp [beq_eq_false_iff_ne.mpr hne]⟩
  rw [hnil] at hm
  simp at hm

theorem skillQLoop_ok (skills : List Str) (hp : skills.Pairwise (fun a b => a ≠ b)) :
    ∀ (steps : Nat) (j : Nat) (used : List Cat5) (o : Oracle) (i : Nat),
    j + steps ≤ skills.length →
    ∃ qs used2 i2, skillQLoop skills j steps used o i = .ok (qs, used2, i2) ∧
      qs.length ≤ steps ∧ ∀ q ∈ qs, q.1 = QCat.skillQ := by
  intro steps
  induction steps with
  | zero => intro j used o i _; exact ⟨[], used, i, rfl, by simp, by simp⟩
  | succ n ih =>
    intro j used o i hj
    by_cases hav : ([Cat5.technical_deep_dive, Cat5.practical_scenarios].filter
        fun c => !used.contains c || used.length > 3).isEmpty = true
    · obtain ⟨qs, used2, i2, heq, hlen, htags⟩ := ih (j + 1) used o i (by omega)
      refine ⟨qs, used2, i2, ?_, by omega, htags⟩
      simp only [skillQLoop]
      rw [if_pos hav]
      exact heq
    · cases hA : [Cat5.technical_deep_dive, Cat5.practical_scenarios].filter
          (fun c => !used.contains c || used.length > 3) with
      | nil => rw [hA] at hav; simp at hav
      | cons a arest =>
        cases hqg : question_generators
            ((a :: arest).get ⟨o i % (a :: arest).length, Nat.mod_lt _ (Nat.succ_pos _)⟩) with
        | nil => exact absurd hqg (qg_ne_nil _)
        | cons t ts =>
          have hch1 : randChoice o i ([Cat5.technical_deep_dive,
              Cat5.practical_scenarios].filter
              fun c => !used.contains c || used.length > 3) =
              some ((a :: arest).get ⟨o i % (a :: arest).length, Nat.mod_lt _ (Nat.succ_pos _)⟩,
                i + 1) := by
            rw [hA]; rfl
          have hch2 : randChoice o (i + 1) (question_generators
              ((a :: arest).get ⟨o i % (a :: arest).length, Nat.mod_lt _ (Nat.succ_pos _)⟩)) =
              some ((t :: ts).get ⟨o (i + 1) % (t :: ts).length, Nat.mod_lt _ (Nat.succ_pos _)⟩,
                i + 2) := by
            rw [hqg]; rfl
          by_cases hc1 : containsSub (str "{skill}")
              ((t :: ts).get ⟨o (i + 1) % (t :: ts).length, Nat.mod_lt _ (Nat.succ_pos _)⟩) = true
          · obtain ⟨qs, used2, i2, heq, hlen, htags⟩ :=
              ih (j + 1) (addSet used
                ((a :: arest).get ⟨o i % (a :: arest).length, Nat.mod_lt _ (Nat.succ_pos _)⟩))
                o (i + 2) (by omega)
            refine ⟨(QCat.skillQ, formatMap [(str "{skill}", skills.getD j [])]
                ((t :: ts).get ⟨o (i + 1) % (t :: ts).length, Nat.mod_lt _ (Nat.succ_pos _)⟩)) :: qs,
              used2, i2, ?_, by simp only [List.length_cons]; omega, ?_⟩
            · simp only [skillQLoop]
              rw [if_neg hav]
              simp only [hch1, hch2]
              rw [if_pos hc1]
              simp only [heq]
            · intro q hq
              rcases List.mem_cons.mp hq with h | h
              · rw [h]
              · exact htags q h
          · by_cases hc2 : (containsSub (str "{skill1}")
                ((t :: ts).get ⟨o (i + 1) % (t :: ts).length, Nat.mod_lt _ (Nat.succ_pos _)⟩) &&
                decide (skills.length > 1)) = true
            · have hlen2 : 1 < skills.length := by
                have := (Bool.and_eq_true _ _).mp hc2
                exact of_decide_eq_true this.2
              cases hF : skills.filter (fun s => !(s == skills.getD j [])) with
              | nil => exact absurd hF (filter_ne_nonempty hp hlen2 _)
              | cons y ys =>
                have hch3 : randChoice o (i + 2) (skills.filter
                    fun s => !(s == skills.getD j [])) =
                    some ((y :: ys).get ⟨o (i + 2) % (y :: ys).length,
                      Nat.mod_lt _ (Nat.succ_pos _)⟩, i + 3) := by
                  rw [hF]; rfl
                obtain ⟨qs, used2, i2, heq, hlen, htags⟩ :=
                  ih (j + 1) (addSet used
                    ((a :: arest).get ⟨o i % (a :: arest).length, Nat.mod_lt _ (Nat.succ_pos _)⟩))
                    o (i + 3) (by omega)
                refine ⟨(QCat.skillQ, formatMap
                    [(str "{skill1}", skills.getD j []),
                     (str "{skill2}", (y :: ys).get ⟨o (i + 2) % (y :: ys).length,
                        Nat.mod_lt _ (Nat.succ_pos _)⟩)]
                    ((t :: ts).get ⟨o (i + 1) % (t :: ts).length,
                      Nat.mod_lt _ (Nat.succ_pos _)⟩)) :: qs,
                  used2, i2, ?_, by simp only [List.length_cons]; omega, ?_⟩
                · simp only [skillQLoop]
                  rw [if_neg hav]
                  simp only [hch1, hch2]
                  rw [if_neg hc1, if_pos hc2]
                  simp only [hch3, heq]
                · intro q hq
                  rcases List.mem_cons.mp hq with h | h
                  · rw [h]
                  · exact htags q h
            · obtain ⟨qs, used2, i2, heq, hlen, htags⟩ :=
                ih (j + 1) (addSet used
                  ((a :: arest).get ⟨o i % (a :: arest).length, Nat.mod_lt _ (Nat.succ_pos _)⟩))
                  o (i + 2) (by omega)
              refine ⟨(QCat.skillQ, str "Considering your " ++ skills.getD j [] ++
                  str " experience: " ++ ((t :: ts).get ⟨o (i + 1) % (t :: ts).length,
                    Nat.mod_lt _ (Nat.succ_pos _)⟩)) :: qs,
                used2, i2, ?_, by simp only [List.length_cons]; omega, ?_⟩
              · simp only [skillQLoop]
                rw [if_neg hav]
                simp only [hch1, hch2]
                rw [if_neg hc1, if_neg hc2]
                simp only [heq]
              · intro q hq
                rcases List.mem_cons.mp hq with h | h
                · rw [h]
                · exact htags q h

theorem generalQLoop_ok (available : List Cat5) (hA : available ≠ []) :
    ∀ (steps j : Nat) (used : List Cat5) (o : Oracle) (i : Nat),
    ∃ qs used2 i2, generalQLoop available j steps used o i = .ok (qs, used2, i2) ∧
      qs.length = steps ∧ ∀ q ∈ qs, q.1 = QCat.generalQ := by
  rcases available with _ | ⟨a, arest⟩
  · exact absurd rfl hA
  · intro steps
    induction steps with
    | zero => intro j used o i; exact ⟨[], used, i, rfl, rfl, by simp⟩
    | succ n ih =>
      intro j used o i
      cases hqg : question_generators
          ((a :: arest).get ⟨j % (a :: arest).length, Nat.mod_lt _ (Nat.succ_pos _)⟩) with
      | nil => exact absurd hqg (qg_ne_nil _)
      | cons t ts =>
        have hch : randChoice o i (question_generators
            ((a :: arest).get ⟨j % (a :: arest).length, Nat.mod_lt _ (Nat.succ_pos _)⟩)) =
            some ((t :: ts).get ⟨o i % (t :: ts).length, Nat.mod_lt _ (Nat.succ_pos _)⟩,
              i + 1) := by
          rw [hqg]; rfl
        obtain ⟨qs, used2, i2, heq, hlen, htags⟩ := ih (j + 1)
          (addSet used ((a :: arest).get ⟨j % (a :: arest).length, Nat.mod_lt _ (Nat.succ_pos _)⟩))
          o (i + 1)
        refine ⟨(QCat.generalQ,
            (t :: ts).get ⟨o i % (t :: ts).length, Nat.mod_lt _ (Nat.succ_pos _)⟩) :: qs,
          used2, i2, ?_, by simp [hlen], ?_⟩
        · simp only [generalQLoop, hch, heq]
        · intro q hq
          rcases List.mem_cons.mp hq with h | h
          · rw [h]
          · exact htags q h

theorem flatten_length_le (blocks : List (List (QCat × Str)))
    (h : ∀ bl ∈ blocks, bl.length ≤ 2) : blocks.flatten.length ≤ 2 * blocks.length := by
  induction blocks with
  | nil => simp
  | cons b bs ih =>
    simp only [List.flatten_cons, List.length_append, List.length_cons]
    have h1 := h b (by simp)
    have h2 := ih fun bl hbl => h bl (by simp [hbl])
    omega

theorem generate_unique_questions_master (skills projects : List Str)
    (experience education : Str) (o : Oracle) (i : Nat)
    (hp : skills.Pairwise (fun a b => a ≠ b)) :
    ∃ (blocks : List (List (QCat × Str))) (b c : List (QCat × Str)),
      generate_unique_questions skills projects experience education o i =
        .ok (blocks.flatten ++ b ++ c) ∧
      blocks.length = min 3 projects.length ∧
      (∀ bl ∈ blocks, 1 ≤ bl.length ∧ bl.length ≤ 2) ∧
      (∀ k, ∀ q ∈ blocks.getD k [], q.1 = QCat.projectQ k) ∧
      (∀ q ∈ b, q.1 = QCat.skillQ) ∧
      (∀ q ∈ c, q.1 = QCat.generalQ) ∧
      blocks.flatten.length ≤ 6 ∧
      blocks.flatten.length + b.length + c.length = 10 := by
  obtain ⟨blocks, used1, i1, hstage1, hblen, hbsz, hbtags⟩ :
      ∃ (blocks : List (List (QCat × Str))) (used1 : List Cat5) (i1 : Nat),
        (if projects.isEmpty then (.ok ([], [], i) : Except PyErr _)
         else projectsLoop (projects.take 3) 0 [] o i) = .ok (blocks.flatten, used1, i1) ∧
        blocks.length = min 3 projects.length ∧
        (∀ bl ∈ blocks, 1 ≤ bl.length ∧ bl.length ≤ 2) ∧
        (∀ k, ∀ q ∈ blocks.getD k [], q.1 = QCat.projectQ k) := by
    by_cases hpe : projects.isEmpty = true
    · refine ⟨[], [], i, ?_, ?_, by simp, ?_⟩
      · rw [if_pos hpe]; rfl
      · simp [List.isEmpty_iff.mp hpe]
      · intro k q hq; simp at hq
    · obtain ⟨blocks, used1, i1, heq, hl, hsz, htg⟩ := projectsLoop_ok (projects.take 3) 0 [] o i
      refine ⟨blocks, used1, i1, ?_, ?_, hsz, ?_⟩
      · rw [if_neg hpe]; exact heq
      · rw [hl, List.length_take]
      · intro k q hq
        have := htg k q hq
        simpa using this
  have hA6 : blocks.flatten.length ≤ 6 := by
    have h1 := flatten_length_le blocks fun bl hbl => (hbsz bl hbl).2
    have h2 : blocks.length ≤ 3 := by omega
    omega
  by_cases hsb : (!skills.isEmpty && decide (10 - blocks.flatten.length > 0)) = true
  · obtain ⟨b, used2, i2, hsk, hbl, hbt⟩ := skillQLoop_ok skills hp
      (min ((10 - blocks.flatten.length) / 2) skills.length) 0 used1 o i1 (by omega)
    have hsk2 : generate_diverse_skill_questions skills
        ((10 - blocks.flatten.length) / 2) used1 o i1 = .ok (b, used2, i2) := by
      unfold generate_diverse_skill_questions
      exact hsk
    obtain ⟨c, used3, i3, hg_eq, hclen, hctags⟩ := generalQLoop_ok
      (if ([Cat5.problem_solving, Cat5.industry_knowledge,
            Cat5.practical_scenarios].filter fun cc => !used2.contains cc).isEmpty then
        [Cat5.problem_solving, Cat5.industry_knowledge]
      else [Cat5.problem_solving, Cat5.industry_knowledge,
            Cat5.practical_scenarios].filter fun cc => !used2.contains cc)
      (if_isEmpty_ne_nil _ _ _)
      (10 - (blocks.flatten ++ b).length) 0 used2 o i2
    have hgq : generate_diverse_general_questions
        (10 - (blocks.flatten ++ b).length) used2 o i2 = .ok (c, used3, i3) := by
      unfold generate_diverse_general_questions
      exact hg_eq
    have hbl2 : b.length ≤ (10 - blocks.flatten.length) / 2 := by omega
    have hg : 10 - (blocks.flatten ++ b).length > 0 := by
      simp only [List.length_append]
      omega
    refine ⟨blocks, b, c, ?_, hblen, hbsz, hbtags, hbt, hctags, hA6, ?_⟩
    · simp only [generate_unique_questions, hstage1]
      unfold genStage2
      rw [if_pos hsb]
      simp only [hsk2]
      unfold genStage3
      rw [if_pos hg]
      simp only [hgq]
      have htot : ((blocks.flatten ++ b) ++ c).length = 10 := by
        simp only [List.length_append] at hclen ⊢
        omega
      rw [List.take_of_length_le (le_of_eq htot), List.append_assoc]
    · simp only [List.length_append] at hclen
      omega
  · obtain ⟨c, used3, i3, hg_eq, hclen, hctags⟩ := generalQLoop_ok
      (if ([Cat5.problem_solving, Cat5.industry_knowledge,
            Cat5.practical_scenarios].filter fun cc => !used1.contains cc).isEmpty then
        [Cat5.problem_solving, Cat5.industry_knowledge]
      else [Cat5.problem_solving, Cat5.industry_knowledge,
            Cat5.practical_scenarios].filter fun cc => !used1.contains cc)
      (if_isEmpty_ne_nil _ _ _)
      (10 - (blocks.flatten ++ ([] : List (QCat × Str))).length) 0 used1 o i1
    have hgq : generate_diverse_general_questions
        (10 - (blocks.flatten ++ ([] : List (QCat × Str))).length) used1 o i1 =
        .ok (c, used3, i3) := by
      unfold generate_diverse_general_questions
      exact hg_eq
    have hg : 10 - (blocks.flatten ++ ([] : List (QCat × Str))).length > 0 := by
      simp only [List.length_append, List.length_nil]
      omega
    refine ⟨blocks, [], c, ?_, hblen, hbsz, hbtags, by simp, hctags, hA6, ?_⟩
    · simp only [generate_unique_questions, hstage1]
      unfold genStage2
      rw [if_neg hsb]
      show genStage3 (blocks.flatten ++ ([] : List (QCat × Str))) used1 o i1 =
        .ok (blocks.flatten ++ [] ++ c)
      unfold genStage3
      rw [if_pos hg]
      simp only [hgq]
      have htot : ((blocks.flatten ++ ([] : List (QCat × Str))) ++ c).length = 10 := by
        simp only [List.length_append, List.length_nil] at hclen ⊢
        omega
      rw [List.take_of_length_le (le_of_eq htot), List.append_assoc]
    · simp only [List.length_append, List.length_nil] at hclen
      simp only [List.length_nil]
      omega

theorem dropWhile_append_all {p : (QCat × Str) → Bool} {l1 l2 : List (QCat × Str)}
    (h : ∀ x ∈ l1, p x = true) : (l1 ++ l2).dropWhile p = l2.dropWhile p := by
  induction l1 with
  | nil => rfl
  | cons a rest ih =>
    simp only [List.cons_append, List.dropWhile_cons, h a (by simp), if_true]
    exact ih fun x hx => h x (by simp [hx])

theorem dropWhile_eq_self_of_all_neg {p : (QCat × Str) → Bool} {l : List (QCat × Str)}
    (h : ∀ x ∈ l, p x = false) : l.dropWhile p = l := by
  cases l with
  | nil => rfl
  | cons a rest => simp [List.dropWhile_cons, h a (by simp)]

theorem mem_flatten_tag (blocks : List (List (QCat × Str)))
    (htags : ∀ k, ∀ q ∈ blocks.getD k [], q.1 = QCat.projectQ k) :
    ∀ q ∈ blocks.flatten, isProjectTag q = true := by
  intro q hq
  obtain ⟨bl, hbl, hqbl⟩ := List.mem_flatten.mp hq
  obtain ⟨k, hk, hget⟩ := List.mem_iff_getElem.mp hbl
  have : blocks.getD k [] = bl := by
    rw [List.getD_eq_getElem blocks [] hk, hget]
  have htag := htags k q (by rw [this]; exact hqbl)
  simp [isProjectTag, htag]

/-- C1: for every analysis result (any skill/project/experience/education
combination with pairwise-distinct skill labels, as `extract_skills` always
produces) and every behaviour of the random module, the question generator
succeeds and returns exactly 10 questions — never fewer, never more. -/
theorem C1_exactly_ten_questions (skills projects : List Str) (experience education : Str)
    (o : Oracle) (i : Nat) (hp : skills.Pairwise (fun a b => a ≠ b)) :
    ∃ qs, generate_unique_questions skills projects experience education o i = .ok qs ∧
      qs.length = 10 := by
  obtain ⟨blocks, b, c, heq, _, _, _, _, _, _, htot⟩ :=
    generate_unique_questions_master skills projects experience education o i hp
  refine ⟨_, heq, ?_⟩
  simp only [List.length_append]
  omega

/-- C2 (amended): `extract_projects` caps the extracted project list at 3,
so an accepted document never has 5 extracted projects; the generator
truncates to the first 3 projects and appends at most 2 questions each, so
the project questions always form a prefix of at most 6 of the 10
questions — the first 10 questions are never 5 projects times 2. -/
theorem C2_project_cap_amended :
    (∀ s : Str, (extract_projects_core s).length ≤ 3) ∧
    (∀ (skills projects : List Str) (experience education : Str) (o : Oracle) (i : Nat),
      skills.Pairwise (fun a b => a ≠ b) →
      ∃ qs, generate_unique_questions skills projects experience education o i = .ok qs ∧
        qs.countP isProjectTag ≤ 6 ∧
        (qs.dropWhile isProjectTag).all (fun q => !isProjectTag q) = true) := by
  constructor
  · intro s
    unfold extract_projects_core
    by_cases h : ((splitProjectBlocks s).filterMap projectTitleOf).isEmpty = true
    · rw [if_pos h]; simp
    · rw [if_neg h]
      exact List.length_take_le _ _
  · intro skills projects experience education o i hp
    obtain ⟨blocks, b, c, heq, hblen, hbsz, hbtags, hbt, hct, hA6, htot⟩ :=
      generate_unique_questions_master skills projects experience education o i hp
    have hflat := mem_flatten_tag blocks hbtags
    have hbfalse : ∀ x ∈ b, isProjectTag x = false := by
      intro x hx
      simp [isProjectTag, hbt x hx]
    have hcfalse : ∀ x ∈ c, isProjectTag x = false := by
      intro x hx
      simp [isProjectTag, hct x hx]
    refine ⟨_, heq, ?_, ?_⟩
    · simp only [List.countP_append]
      have h1 : blocks.flatten.countP isProjectTag = blocks.flatten.length :=
        List.countP_eq_length.mpr hflat
      have h2 : b.countP isProjectTag = 0 := by
        rw [List.countP_eq_zero]
        intro x hx
        simp [hbfalse x hx]
      have h3 : c.countP isProjectTag = 0 := by
        rw [List.countP_eq_zero]
        intro x hx
        simp [hcfalse x hx]
      omega
    · have hbc : ∀ x ∈ b ++ c, isProjectTag x = false := by
        intro x hx
        rcases List.mem_append.mp hx with h | h
        · exact hbfalse x h
        · exact hcfalse x h
      rw [List.append_assoc, dropWhile_append_all hflat, dropWhile_eq_self_of_all_neg hbc]
      rw [List.all_eq_true]
      intro x hx
      simp [hbc x hx]

/-- C3 (amended): each admitted project (the first 3) contributes
`min(2, available categories)` questions — 1 or 2, not always exactly 2 —
appended adjacently as one block per project in project order; the blocks
are never split or truncated (all non-project questions come after them).
-/
theorem C3_project_blocks_amended (skills projects : List Str) (experience education : Str)
    (o : Oracle) (i : Nat) (hp : skills.Pairwise (fun a b => a ≠ b)) :
    ∃ (blocks : List (List (QCat × Str))) (rest : List (QCat × Str)),
      generate_unique_questions skills projects experience education o i =
        .ok (blocks.flatten ++ rest) ∧
      blocks.length = min 3 projects.length ∧
      (∀ bl ∈ blocks, 1 ≤ bl.length ∧ bl.length ≤ 2) ∧
      (∀ k, ∀ q ∈ blocks.getD k [], q.1 = QCat.projectQ k) ∧
      rest.all (fun q => !isProjectTag q) = true := by
  obtain ⟨blocks, b, c, heq, hblen, hbsz, hbtags, hbt, hct, hA6, htot⟩ :=
    generate_unique_questions_master skills projects experience education o i hp
  refine ⟨blocks, b ++ c, ?_, hblen, hbsz, hbtags, ?_⟩
  · rw [← List.append_assoc]; exact heq
  · rw [List.all_eq_true]
    intro x hx
    rcases List.mem_append.mp hx with h | h
    · simp [isProjectTag, hbt x h]
    · simp [isProjectTag, hct x h]

/-- C4 (amended): the generated set consists of project questions, then
skill questions, then general questions, in that fixed order; experience
and education questions are never generated — `generate_unique_questions`
reads only the skills and projects of the analysis result and has no
experience or education quota. -/
theorem C4_generation_order_amended (skills projects : List Str) (experience education : Str)
    (o : Oracle) (i : Nat) (hp : skills.Pairwise (fun a b => a ≠ b)) :
    ∃ a b c : List (QCat × Str),
      generate_unique_questions skills projects experience education o i =
        .ok (a ++ b ++ c) ∧
      a.all isProjectTag = true ∧
      b.all (fun q => q.1 == QCat.skillQ) = true ∧
      c.all (fun q => q.1 == QCat.generalQ) = true ∧
      (a ++ b ++ c).all
        (fun q => !(q.1 == QCat.experienceQ) && !(q.1 == QCat.educationQ)) = true := by
  obtain ⟨blocks, b, c, heq, hblen, hbsz, hbtags, hbt, hct, hA6, htot⟩ :=
    generate_unique_questions_master skills projects experience education o i hp
  have hflat := mem_flatten_tag blocks hbtags
  refine ⟨blocks.flatten, b, c, heq, ?_, ?_, ?_, ?_⟩
  · rw [List.all_eq_true]; exact hflat
  · rw [List.all_eq_true]; intro x hx; simp [hbt x hx]
  · rw [List.all_eq_true]; intro x hx; simp [hct x hx]
  · rw [List.all_eq_true]
    intro x hx
    rcases List.mem_append.mp hx with h | h
    · rcases List.mem_append.mp h with h2 | h2
      · have := hflat x h2
        unfold isProjectTag at this
        rcases x with ⟨tag, s⟩
        cases tag <;> simp_all
      · simp [hbt x h2]
    · simp [hct x h]

/-- C2 (counterexample): with 5 extracted projects the claim says the first
10 questions are exactly the project questions (5 × 2); in fact only 5 of
the 10 are project questions (the generator keeps 3 projects and gives the
second only one question). -/
theorem C2_first_ten_not_all_project_cex :
    (generate_unique_questions []
        [str "Alpha Detection System", str "Beta Management Tool",
         str "Gamma Analyzer Platform", str "Delta Generator App",
         str "Epsilon Classification Suite"] [] [] (fun _ => 0) 0).map
      (fun qs => (qs.length, qs.countP isProjectTag)) = .ok (10, 5) ∧
    (5 : Nat) ≠ 10 := ⟨by decide, by decide⟩

/-- C3 (counterexample): with two projects the second admitted project gets
exactly 1 question, not 2 — after the first project consumes two of the
three categories, only one category remains available. -/
theorem C3_second_project_single_question_cex :
    (generate_unique_questions [str "Python", str "Java"]
        [str "Alpha Detection System", str "Beta Management Tool"] [] []
        (fun _ => 0) 0).map
      (fun qs => (qs.countP (fun q => q.1 == QCat.projectQ 0),
                  qs.countP (fun q => q.1 == QCat.projectQ 1))) = .ok (2, 1) ∧
    (1 : Nat) ≠ 2 := ⟨by decide, by decide⟩

/-- C4 (counterexample): an analysis result with non-empty experience and
education text and slots remaining (claimed quotas
`experienceQuota = min(2, 9 // 2) = 2`, `educationQuota = min(1, 7) = 1`)
yields 0 experience questions and 0 education questions. -/
theorem C4_no_experience_education_cex :
    (generate_unique_questions [str "Python"] []
        (str "Software Engineer at Initech for three years")
        (str "Bachelor of Science in Computer Science") (fun _ => 0) 0).map
      (fun qs => (qs.countP (fun q => q.1 == QCat.experienceQ),
                  qs.countP (fun q => q.1 == QCat.educationQ),
                  qs.countP (fun q => q.1 == QCat.skillQ))) = .ok (0, 0, 1) ∧
    min 2 ((10 - 0 - 1) / 2) = 2 ∧ (0 : Nat) ≠ 2 ∧
    min 1 (10 - 0 - 1 - 2) = 1 ∧ (0 : Nat) ≠ 1 :=
  ⟨by decide, by decide, by decide, by decide, by decide⟩

theorem C1_exactly_ten_questions_witness :
    ∃ qs, generate_unique_questions [] [] [] [] (fun _ => 0) 0 = .ok qs ∧
      qs.length = 10 :=
  C1_exactly_ten_questions [] [] [] [] (fun _ => 0) 0 List.Pairwise.nil

theorem C2_project_cap_amended_witness :
    ∃ qs, generate_unique_questions []
        [str "Alpha Detection System", str "Beta Management Tool"] [] []
        (fun _ => 1) 0 = .ok qs ∧
      qs.countP isProjectTag ≤ 6 ∧
      (qs.dropWhile isProjectTag).all (fun q => !isProjectTag q) = true :=
  C2_project_cap_amended.2 []
    [str "Alpha Detection System", str "Beta Management Tool"] [] []
    (fun _ => 1) 0 List.Pairwise.nil

theorem C3_project_blocks_amended_witness :
    ∃ (blocks : List (List (QCat × Str))) (rest : List (QCat × Str)),
      generate_unique_questions [] [str "Alpha Detection System"] [] []
        (fun _ => 2) 0 = .ok (blocks.flatten ++ rest) ∧
      blocks.length = min 3 [str "Alpha Detection System"].length ∧
      (∀ bl ∈ blocks, 1 ≤ bl.length ∧ bl.length ≤ 2) ∧
      (∀ k, ∀ q ∈ blocks.getD k [], q.1 = QCat.projectQ k) ∧
      rest.all (fun q => !isProjectTag q) = true :=
  C3_project_blocks_amended [] [str "Alpha Detection System"] [] []
    (fun _ => 2) 0 List.Pairwise.nil

theorem C4_generation_order_amended_witness :
    ∃ a b c : List (QCat × Str),
      generate_unique_questions [] [] (str "intern") (str "degree")
        (fun _ => 3) 0 = .ok (a ++ b ++ c) ∧
      a.all isProjectTag = true ∧
      b.all (fun q => q.1 == QCat.skillQ) = true ∧
      c.all (fun q => q.1 == QCat.generalQ) = true ∧
      (a ++ b ++ c).all
        (fun q => !(q.1 == QCat.experienceQ) && !(q.1 == QCat.educationQ)) = true :=
  C4_generation_order_amended [] [] (str "intern") (str "degree")
    (fun _ => 3) 0 List.Pairwise.nil

/-- The skill lists produced by `extract_skills` always satisfy the
distinctness hypothesis used for the question-count results: the
case-insensitive deduplication makes any two extracted entries differ, so
every analysis result built by the analyzer is covered. -/
theorem extract_skills_pairwise_ne (text : Str) :
    (extract_skills text).Pairwise (fun a b => a ≠ b) := by
  have h := List.Pairwise.sublist (List.take_sublist 12 _)
    (dedupeCIGo_pairwise (vocabScan text ++ patternScan text) [])
  exact h.imp fun hne heq => hne (congrArg lowerStr heq)
